import Mathlib

/-!
Verification development for the user-management-models repository: a shallow
embedding in Lean 4 of its two storage adapters (MemoryAdapter and
FileSystemAdapter), the shared query engine (filter, sort, paginate), the
hook (mutation-pipeline) engine, and the manager layer that wraps adapter
calls with pre/post hooks.  JavaScript machine state is made explicit:
adapter classes become state-passing functions, `Date` values and id
generation become explicit parameters, thrown errors become `Except`.
-/

set_option maxHeartbeats 1000000

/-- A JavaScript timestamp value as it can appear in an entity field.
`date ms` is a `Date` object holding `ms` milliseconds; `iso ms` is the
ISO-8601 string serialization of the same instant (as produced by
`JSON.stringify` / kept by `JSON.parse`, which does not restore `Date`s). -/
inductive Ts where
  | date (ms : Nat)
  | iso (ms : Nat)
deriving DecidableEq, Repr

/-- A tag value: string, number or boolean (src/types `Tag`). -/
inductive TagVal where
  | str (s : String)
  | num (n : Int)
  | bool (b : Bool)
deriving DecidableEq, Repr

/-- src/types `User`. -/
structure User where
  id : String
  username : String
  email : String
  passwordHash : Option String := none
  tags : Option (List (String × TagVal)) := none
  createdAt : Ts
  updatedAt : Ts
deriving DecidableEq, Repr

/-- src/types `Role`. -/
structure Role where
  id : String
  name : String
  description : Option String := none
  tags : Option (List (String × TagVal)) := none
  createdAt : Ts
  updatedAt : Ts
deriving DecidableEq, Repr

/-- src/types `UserRole` (the user↔role association). -/
structure UserRole where
  userId : String
  roleId : String
  createdAt : Ts
deriving DecidableEq, Repr

/-- The `Omit<User, 'id' | 'createdAt' | 'updatedAt'>` creation payload. -/
structure UserData where
  username : String
  email : String
  passwordHash : Option String := none
  tags : Option (List (String × TagVal)) := none
deriving DecidableEq, Repr

/-- The `Omit<Role, 'id' | 'createdAt' | 'updatedAt'>` creation payload. -/
structure RoleData where
  name : String
  description : Option String := none
  tags : Option (List (String × TagVal)) := none
deriving DecidableEq, Repr

/-- Source: `Partial<User>`: every field optionally present. -/
structure UserPatch where
  id : Option String := none
  username : Option String := none
  email : Option String := none
  passwordHash : Option (Option String) := none
  tags : Option (Option (List (String × TagVal))) := none
  createdAt : Option Ts := none
  updatedAt : Option Ts := none
deriving DecidableEq, Repr

/-- Source: `Partial<Role>`: every field optionally present. -/
structure RolePatch where
  id : Option String := none
  name : Option String := none
  description : Option (Option String) := none
  tags : Option (Option (List (String × TagVal))) := none
  createdAt : Option Ts := none
  updatedAt : Option Ts := none
deriving DecidableEq, Repr

/-- The object spread `{ ...user, ...userData }` used by `updateUser`. -/
def mergeUser (u : User) (p : UserPatch) : User :=
  { id := p.id.getD u.id
    username := p.username.getD u.username
    email := p.email.getD u.email
    passwordHash := p.passwordHash.getD u.passwordHash
    tags := p.tags.getD u.tags
    createdAt := p.createdAt.getD u.createdAt
    updatedAt := p.updatedAt.getD u.updatedAt }

/-- The object spread `{ ...role, ...roleData }` used by `updateRole`. -/
def mergeRole (r : Role) (p : RolePatch) : Role :=
  { id := p.id.getD r.id
    name := p.name.getD r.name
    description := p.description.getD r.description
    tags := p.tags.getD r.tags
    createdAt := p.createdAt.getD r.createdAt
    updatedAt := p.updatedAt.getD r.updatedAt }

/-- A JavaScript runtime value as observed by the query engine when reading
`record[key]`.  `dateV` is a `Date` object, `isoStrV ms` the ISO string of
instant `ms`, `objV` any other object value (tags). -/
inductive Value where
  | str (s : String)
  | num (n : Int)
  | bool (b : Bool)
  | dateV (ms : Nat)
  | isoStrV (ms : Nat)
  | objV
  | undefV
deriving DecidableEq, Repr

/-- JavaScript `===` between a stored field value and a caller-supplied
filter value.  Objects (`Date`s, tag maps) compare by reference and a
caller-supplied filter value is never the stored reference, hence `false`;
ISO strings of the same instant are equal as strings. -/
def jsEqV : Value → Value → Bool
  | .str a, .str b => a = b
  | .num a, .num b => a = b
  | .bool a, .bool b => a = b
  | .isoStrV a, .isoStrV b => a = b
  | .undefV, .undefV => true
  | _, _ => false

/-- JavaScript `<` between two field values of compared records.  Same-type
comparisons follow the natural order (strings lexicographically, `Date`s by
instant, ISO strings chronologically = lexicographically); `Date < number`
coerces the `Date` to its millisecond value; remaining cross-type
comparisons (never exercised by the claims) are treated as incomparable. -/
def ltV : Value → Value → Bool
  | .str a, .str b => a < b
  | .num a, .num b => a < b
  | .bool a, .bool b => !a && b
  | .dateV a, .dateV b => a < b
  | .isoStrV a, .isoStrV b => a < b
  | .dateV a, .num b => (a : Int) < b
  | .num a, .dateV b => a < (b : Int)
  | _, _ => false

/-- How a stored timestamp field reads back as a runtime value. -/
def tsValue : Ts → Value
  | .date ms => .dateV ms
  | .iso ms => .isoStrV ms

/-- Source: `user[key]` for the dynamic field accesses of filter and sort. -/
def getFieldU (u : User) : String → Value
  | "id" => .str u.id
  | "username" => .str u.username
  | "email" => .str u.email
  | "passwordHash" => match u.passwordHash with | some h => .str h | none => .undefV
  | "tags" => match u.tags with | some _ => .objV | none => .undefV
  | "createdAt" => tsValue u.createdAt
  | "updatedAt" => tsValue u.updatedAt
  | _ => .undefV

/-- Source: `role[key]` for the dynamic field accesses of filter and sort. -/
def getFieldR (r : Role) : String → Value
  | "id" => .str r.id
  | "name" => .str r.name
  | "description" => match r.description with | some d => .str d | none => .undefV
  | "tags" => match r.tags with | some _ => .objV | none => .undefV
  | "createdAt" => tsValue r.createdAt
  | "updatedAt" => tsValue r.updatedAt
  | _ => .undefV

/-- An exact-match filter map (`QueryFilter`): field name to value. -/
abbrev QFilter := List (String × Value)

/-- A sort specification: ordered field/direction pairs, `true` = 'asc'. -/
abbrev SortSpec := List (String × Bool)

/-- src/types `QueryOptions` (the unused `include` field is omitted). -/
structure QueryOptions where
  filter : Option QFilter := none
  sort : Option SortSpec := none
  limit : Option Int := none
  offset : Option Int := none

/-- The `{ items, total }` result of `getUsers`/`getRoles`. -/
structure QueryResult (α : Type) where
  items : List α
  total : Nat
deriving DecidableEq, Repr

/-- The filter predicate: `Object.entries(filter).every(([k, v]) => record[k] === v)`. -/
def matchesFilter (getField : α → String → Value) (f : QFilter) (x : α) : Bool :=
  f.all fun kv => jsEqV (getField x kv.1) kv.2

/-- The lexicographic sort comparator of `getUsers`/`getRoles`: for each
sort key in order, fields that are both defined are compared with `<`/`>`;
an undefined side falls through to the next key; exhausted keys give 0. -/
def cmpBySpec (getField : α → String → Value) : SortSpec → α → α → Int
  | [], _, _ => 0
  | (k, asc) :: rest, a, b =>
    let av := getField a k
    let bv := getField b k
    if av ≠ .undefV ∧ bv ≠ .undefV then
      if ltV av bv then (if asc then -1 else 1)
      else if ltV bv av then (if asc then 1 else -1)
      else cmpBySpec getField rest a b
    else cmpBySpec getField rest a b

/-- Stable insertion of `x` in front of the first element strictly after it:
`x` (the earlier element) stays before elements comparing equal. -/
def insCmp (cmp : α → α → Int) (x : α) : List α → List α
  | [] => [x]
  | y :: ys => if cmp x y ≤ 0 then x :: y :: ys else y :: insCmp cmp x ys

/-- A stable comparator sort, modelling `Array.prototype.sort` (stable). -/
def sortByCmp (cmp : α → α → Int) : List α → List α
  | [] => []
  | x :: xs => insCmp cmp x (sortByCmp cmp xs)

/-- Source: `Array.prototype.slice(start, stop)` with JavaScript index clamping
(negative indices count from the end). -/
def jsSlice (l : List α) (start stop : Int) : List α :=
  let n := l.length
  let norm : Int → Nat := fun i => if i < 0 then ((n : Int) + i).toNat else min i.toNat n
  ((l.drop (norm start)).take (norm stop - norm start))

/-- Insertion-ordered `Set`: keep the first occurrence of each element. -/
def dedupFirst [DecidableEq α] : List α → List α
  | [] => []
  | x :: xs => x :: dedupFirst (xs.filter (· ≠ x))
termination_by l => l.length
decreasing_by
  simp only [List.length_cons]
  exact Nat.lt_succ_of_le (List.length_filter_le _ _)

/-- A JavaScript `Map` as an insertion-ordered association list. -/
abbrev JsMap (α : Type) := List (String × α)

namespace JsMap

/-- Source: `Map.prototype.get` (first matching key). -/
def get (m : JsMap α) (k : String) : Option α :=
  (m.find? fun p => p.1 = k).map fun p => p.2

/-- Source: `Map.prototype.has`. -/
def has (m : JsMap α) (k : String) : Bool :=
  (get m k).isSome

/-- Source: `Map.prototype.set`: replace in place if the key exists (keeping its
position), otherwise append. -/
def set (m : JsMap α) (k : String) (v : α) : JsMap α :=
  if has m k then m.map fun p => if p.1 = k then (k, v) else p
  else m ++ [(k, v)]

/-- Source: `Map.prototype.delete` (the resulting map). -/
def del (m : JsMap α) (k : String) : JsMap α :=
  m.filter fun p => p.1 ≠ k

/-- Source: `Map.prototype.values` in insertion order. -/
def values (m : JsMap α) : List α :=
  m.map fun p => p.2

end JsMap

/-- src `ValidationError`. -/
structure ValidationError where
  field : String
  message : String
deriving DecidableEq, Repr

/-- The email regular expression of `Validator.validateUser`:
one-or-more non-space-non-at characters, `@`, a domain that is
one-or-more such characters, a dot, and one-or-more such characters. -/
def emailValid (s : String) : Bool :=
  let cs := s.toList
  let ok : Char → Bool := fun c => !c.isWhitespace && c ≠ '@'
  -- the string splits as local@domain with exactly one '@'
  match cs.splitOn '@' with
  | [localPart, domain] =>
    localPart ≠ [] && localPart.all ok && domain.all ok &&
      -- the domain splits at some '.' with both sides non-empty
      (match domain.splitOn '.' with
       | [] => false
       | segs => segs.head? ≠ some [] && segs.getLast? ≠ some [] && segs.length ≥ 2)
  | _ => false

/-- Source: `Validator.validateUser` restricted to the checks that can fire on typed
input: username required, email required and well-formed (the `typeof`
checks cannot fail on typed data). -/
def validateUserCore (username email : String) : List ValidationError :=
  (if username = "" then [⟨"username", "Username is required"⟩] else []) ++
    (if email = "" then [⟨"email", "Email is required"⟩]
     else if !emailValid email then [⟨"email", "Email is not valid"⟩] else [])

/-- Source: `Validator.validateRole` restricted to the checks that can fire on
typed input: role name required. -/
def validateRoleCore (name : String) : List ValidationError :=
  if name = "" then [⟨"name", "Role name is required"⟩] else []

/-- Source: `Validator.validateId`: fails on an empty (falsy) identifier. -/
def validateId (id : String) : Option ValidationError :=
  if id = "" then some ⟨"id", "ID is required"⟩ else none

/-- Source: `Validator.validateQueryOptions`: only a `typeof` check, which cannot
fail on typed options. -/
def validateQueryOptions (_ : QueryOptions) : Option ValidationError :=
  none

/-- The `Validation failed: ...` message assembled by the adapters. -/
def validationMsg (errs : List ValidationError) : String :=
  "Validation failed: " ++ String.intercalate ", " (errs.map fun e => e.message)

/-- The shared query pipeline body of `getUsers`/`getRoles` (identical in
both adapters): take the collection values, record `total` BEFORE the
filter, then filter, then sort, then paginate only when `limit` is truthy. -/
def runQuery (getField : α → String → Value) (xs : List α) (opts : QueryOptions) :
    QueryResult α :=
  let total := xs.length
  let xs := match opts.filter with
    | some f => xs.filter (matchesFilter getField f)
    | none => xs
  let xs := match opts.sort with
    | some sp => sortByCmp (cmpBySpec getField sp) xs
    | none => xs
  let xs := match opts.limit with
    | some l =>
      -- `if (options?.limit)`: 0 is falsy, so limit 0 skips pagination
      if l ≠ 0 then
        let offset := opts.offset.getD 0
        jsSlice xs offset (offset + l)
      else xs
    | none => xs
  ⟨xs, total⟩

/-! ## MemoryAdapter -/

/-- The three collections captured by `beginTransaction` (shallow `Map`
copies; entity objects are never mutated in place, so value semantics is
faithful). -/
structure MemTriple where
  users : JsMap User
  roles : JsMap Role
  userRoles : JsMap UserRole
deriving DecidableEq, Repr

/-- The mutable fields of a `MemoryAdapter` instance. -/
structure MemState where
  users : JsMap User
  roles : JsMap Role
  userRoles : JsMap UserRole
  inTransaction : Bool := false
  transactionData : Option MemTriple := none
deriving DecidableEq, Repr

namespace MemoryAdapter

/-- Source: `getUserMap`: the transaction's map while a transaction is open. -/
def getUserMap (s : MemState) : JsMap User :=
  match s.transactionData with
  | some td => if s.inTransaction then td.users else s.users
  | none => s.users

/-- Source: `getRoleMap`. -/
def getRoleMap (s : MemState) : JsMap Role :=
  match s.transactionData with
  | some td => if s.inTransaction then td.roles else s.roles
  | none => s.roles

/-- Source: `getUserRoleMap`. -/
def getUserRoleMap (s : MemState) : JsMap UserRole :=
  match s.transactionData with
  | some td => if s.inTransaction then td.userRoles else s.userRoles
  | none => s.userRoles

/-- Writing through the reference returned by `getUserMap`: the mutation
lands in the transaction data while a transaction is open, otherwise in
the live collection. -/
def putUserMap (s : MemState) (m : JsMap User) : MemState :=
  match s.transactionData with
  | some td =>
    if s.inTransaction then { s with transactionData := some { td with users := m } }
    else { s with users := m }
  | none => { s with users := m }

/-- Writing through the reference returned by `getRoleMap`. -/
def putRoleMap (s : MemState) (m : JsMap Role) : MemState :=
  match s.transactionData with
  | some td =>
    if s.inTransaction then { s with transactionData := some { td with roles := m } }
    else { s with roles := m }
  | none => { s with roles := m }

/-- Writing through the reference returned by `getUserRoleMap`. -/
def putUserRoleMap (s : MemState) (m : JsMap UserRole) : MemState :=
  match s.transactionData with
  | some td =>
    if s.inTransaction then { s with transactionData := some { td with userRoles := m } }
    else { s with userRoles := m }
  | none => { s with userRoles := m }

/-- Source: `MemoryAdapter.beginTransaction`. -/
def beginTransaction (s : MemState) : Except String MemState :=
  if s.inTransaction then .error "Transaction already in progress"
  else .ok { s with
    inTransaction := true
    transactionData := some ⟨s.users, s.roles, s.userRoles⟩ }

/-- Source: `MemoryAdapter.commit`. -/
def commit (s : MemState) : Except String MemState :=
  match s.transactionData with
  | some td =>
    if s.inTransaction then
      .ok { users := td.users, roles := td.roles, userRoles := td.userRoles
            inTransaction := false, transactionData := none }
    else .error "No transaction in progress"
  | none => .error "No transaction in progress"

/-- Source: `MemoryAdapter.rollback`: discard the transaction data, the main data
remains unchanged. -/
def rollback (s : MemState) : Except String MemState :=
  match s.transactionData with
  | some _ =>
    if s.inTransaction then
      .ok { s with inTransaction := false, transactionData := none }
    else .error "No transaction in progress"
  | none => .error "No transaction in progress"

/-- Source: `MemoryAdapter.createUser` (`id` and `now` stand for the ambient
`IdGenerator.generate()` and `new Date()`). -/
def createUser (s : MemState) (userData : UserData) (id : String) (now : Nat) :
    Except String (User × MemState) :=
  match validateUserCore userData.username userData.email with
  | [] =>
    let user : User :=
      { id := id, username := userData.username, email := userData.email
        passwordHash := userData.passwordHash, tags := userData.tags
        createdAt := .date now, updatedAt := .date now }
    .ok (user, putUserMap s (JsMap.set (getUserMap s) id user))
  | errs => .error (validationMsg errs)

/-- Source: `MemoryAdapter.getUserById`. -/
def getUserById (s : MemState) (id : String) : Except String (Option User) :=
  match validateId id with
  | some e => .error ("Validation failed: " ++ e.message)
  | none => .ok (JsMap.get (getUserMap s) id)

/-- Source: `MemoryAdapter.getUsers`. -/
def getUsers (s : MemState) (opts : QueryOptions) :
    Except String (QueryResult User) :=
  match validateQueryOptions opts with
  | some e => .error ("Validation failed: " ++ e.message)
  | none => .ok (runQuery getFieldU (JsMap.values (getUserMap s)) opts)

/-- Source: `MemoryAdapter.updateUser`. -/
def updateUser (s : MemState) (id : String) (p : UserPatch) (now : Nat) :
    Except String (Option User × MemState) :=
  match validateId id with
  | some e => .error ("Validation failed: " ++ e.message)
  | none =>
    let users := getUserMap s
    match JsMap.get users id with
    | none => .ok (none, s)
    | some user =>
      let merged := mergeUser user p
      match validateUserCore merged.username merged.email with
      | [] =>
        let updatedUser := { merged with updatedAt := Ts.date now }
        .ok (some updatedUser, putUserMap s (JsMap.set users id updatedUser))
      | errs => .error (validationMsg errs)

/-- Source: `MemoryAdapter.deleteUser`: remove the user's associations first, then
delete the user, returning whether it existed. -/
def deleteUser (s : MemState) (id : String) : Except String (Bool × MemState) :=
  match validateId id with
  | some e => .error ("Validation failed: " ++ e.message)
  | none =>
    let users := getUserMap s
    let userRoles := (getUserRoleMap s).filter fun p => p.2.userId ≠ id
    let s := putUserRoleMap s userRoles
    .ok (JsMap.has users id, putUserMap s (JsMap.del users id))

/-- Source: `MemoryAdapter.createRole`. -/
def createRole (s : MemState) (roleData : RoleData) (id : String) (now : Nat) :
    Except String (Role × MemState) :=
  match validateRoleCore roleData.name with
  | [] =>
    let role : Role :=
      { id := id, name := roleData.name, description := roleData.description
        tags := roleData.tags, createdAt := .date now, updatedAt := .date now }
    .ok (role, putRoleMap s (JsMap.set (getRoleMap s) id role))
  | errs => .error (validationMsg errs)

/-- Source: `MemoryAdapter.getRoleById`. -/
def getRoleById (s : MemState) (id : String) : Except String (Option Role) :=
  match validateId id with
  | some e => .error ("Validation failed: " ++ e.message)
  | none => .ok (JsMap.get (getRoleMap s) id)

/-- Source: `MemoryAdapter.getRoles`. -/
def getRoles (s : MemState) (opts : QueryOptions) :
    Except String (QueryResult Role) :=
  match validateQueryOptions opts with
  | some e => .error ("Validation failed: " ++ e.message)
  | none => .ok (runQuery getFieldR (JsMap.values (getRoleMap s)) opts)

/-- Source: `MemoryAdapter.updateRole`. -/
def updateRole (s : MemState) (id : String) (p : RolePatch) (now : Nat) :
    Except String (Option Role × MemState) :=
  match validateId id with
  | some e => .error ("Validation failed: " ++ e.message)
  | none =>
    let roles := getRoleMap s
    match JsMap.get roles id with
    | none => .ok (none, s)
    | some role =>
      let merged := mergeRole role p
      match validateRoleCore merged.name with
      | [] =>
        let updatedRole := { merged with updatedAt := Ts.date now }
        .ok (some updatedRole, putRoleMap s (JsMap.set roles id updatedRole))
      | errs => .error (validationMsg errs)

/-- Source: `MemoryAdapter.deleteRole`. -/
def deleteRole (s : MemState) (id : String) : Except String (Bool × MemState) :=
  match validateId id with
  | some e => .error ("Validation failed: " ++ e.message)
  | none =>
    let roles := getRoleMap s
    let userRoles := (getUserRoleMap s).filter fun p => p.2.roleId ≠ id
    let s := putUserRoleMap s userRoles
    .ok (JsMap.has roles id, putRoleMap s (JsMap.del roles id))

/-- Source: `MemoryAdapter.assignRole`.  Note the existence checks look at BOTH the
live collections (`this.users`/`this.roles`) and the transaction data — not
at the map selected by `getUserMap`. -/
def assignRole (s : MemState) (userId roleId : String) (now : Nat) :
    Except String (UserRole × MemState) :=
  match validateId userId, validateId roleId with
  | none, none =>
    let userExists := JsMap.has s.users userId ||
      (match s.transactionData with | some td => JsMap.has td.users userId | none => false)
    let roleExists := JsMap.has s.roles roleId ||
      (match s.transactionData with | some td => JsMap.has td.roles roleId | none => false)
    if !userExists || !roleExists then .error "User or role not found"
    else
      let key := userId ++ ":" ++ roleId
      let userRoles := getUserRoleMap s
      match JsMap.get userRoles key with
      | some ur => .ok (ur, s)
      | none =>
        let ur : UserRole := { userId := userId, roleId := roleId, createdAt := .date now }
        .ok (ur, putUserRoleMap s (JsMap.set userRoles key ur))
  | e1, e2 =>
    .error ("Validation failed: " ++
      String.intercalate ", " (([e1, e2].filterMap id).map fun e => e.message))

/-- Source: `MemoryAdapter.removeRole`. -/
def removeRole (s : MemState) (userId roleId : String) :
    Except String (Bool × MemState) :=
  match validateId userId, validateId roleId with
  | none, none =>
    let key := userId ++ ":" ++ roleId
    let userRoles := getUserRoleMap s
    .ok (JsMap.has userRoles key, putUserRoleMap s (JsMap.del userRoles key))
  | e1, e2 =>
    .error ("Validation failed: " ++
      String.intercalate ", " (([e1, e2].filterMap id).map fun e => e.message))

/-- Source: `MemoryAdapter.getUserRoles`: the distinct role ids of the user's
associations (a `Set`, insertion-ordered), resolved against the role map,
unresolvable ids dropped. -/
def getUserRoles (s : MemState) (userId : String) : Except String (List Role) :=
  match validateId userId with
  | some e => .error ("Validation failed: " ++ e.message)
  | none =>
    let roleIds := dedupFirst
      (((JsMap.values (getUserRoleMap s)).filter fun ur => ur.userId = userId).map
        fun ur => ur.roleId)
    .ok (roleIds.filterMap fun roleId => JsMap.get (getRoleMap s) roleId)

/-- Source: `MemoryAdapter.getRoleUsers`. -/
def getRoleUsers (s : MemState) (roleId : String) : Except String (List User) :=
  match validateId roleId with
  | some e => .error ("Validation failed: " ++ e.message)
  | none =>
    let userIds := dedupFirst
      (((JsMap.values (getUserRoleMap s)).filter fun ur => ur.roleId = roleId).map
        fun ur => ur.userId)
    .ok (userIds.filterMap fun userId => JsMap.get (getUserMap s) userId)

end MemoryAdapter

/-! ## FileSystemAdapter -/

/-- The `FileSystemData` triple of the durable adapter. -/
structure FsData where
  users : List User
  roles : List Role
  userRoles : List UserRole
deriving DecidableEq, Repr

/-- Source: `JSON.stringify`/`JSON.parse` round trip of a timestamp: a `Date`
serializes to its ISO string; a string stays a string. -/
def jsonRtTs : Ts → Ts
  | .date ms => .iso ms
  | .iso ms => .iso ms

/-- JSON round trip of a user (strings, numbers, booleans and plain
objects survive unchanged; `Date`s come back as ISO strings). -/
def jsonRtUser (u : User) : User :=
  { u with createdAt := jsonRtTs u.createdAt, updatedAt := jsonRtTs u.updatedAt }

/-- JSON round trip of a role. -/
def jsonRtRole (r : Role) : Role :=
  { r with createdAt := jsonRtTs r.createdAt, updatedAt := jsonRtTs r.updatedAt }

/-- JSON round trip of an association. -/
def jsonRtUserRole (ur : UserRole) : UserRole :=
  { ur with createdAt := jsonRtTs ur.createdAt }

/-- Source: `JSON.parse(JSON.stringify(data))`: the deep copy taken by
`FileSystemAdapter.beginTransaction`, and the content written by
`saveData`. -/
def jsonRtData (d : FsData) : FsData :=
  { users := d.users.map jsonRtUser
    roles := d.roles.map jsonRtRole
    userRoles := d.userRoles.map jsonRtUserRole }

/-- The mutable fields of a `FileSystemAdapter` instance.  `disk` is the
content of the snapshot file (`none` before the first write); path fields
are omitted. -/
structure FsState where
  data : FsData
  inTransaction : Bool := false
  transactionData : Option FsData := none
  disk : Option FsData := none
deriving DecidableEq, Repr

namespace FileSystemAdapter

/-- Source: `saveData`: serialize the whole collection set to the snapshot file. -/
def saveData (s : FsState) : FsState :=
  { s with disk := some (jsonRtData s.data) }

/-- Source: `FileSystemAdapter.beginTransaction`: deep-copy the in-memory state via
a JSON round trip into the side buffer. -/
def beginTransaction (s : FsState) : Except String FsState :=
  if s.inTransaction then .error "Transaction already in progress"
  else .ok { s with inTransaction := true, transactionData := some (jsonRtData s.data) }

/-- Source: `FileSystemAdapter.commit`: one file rewrite, then drop the buffer. -/
def commit (s : FsState) : Except String FsState :=
  if !s.inTransaction then .error "No transaction in progress"
  else .ok { saveData s with inTransaction := false, transactionData := none }

/-- Source: `FileSystemAdapter.rollback`: restore the in-memory state from the side
buffer (the JSON round-tripped copy of the pre-begin state). -/
def rollback (s : FsState) : Except String FsState :=
  match s.transactionData with
  | some td =>
    if s.inTransaction then
      .ok { s with data := td, inTransaction := false, transactionData := none }
    else .error "No transaction in progress"
  | none => .error "No transaction in progress"

/-- Source: `saveData` is called by mutations only outside a transaction. -/
def saveIf (s : FsState) : FsState :=
  if !s.inTransaction then saveData s else s

/-- Source: `FileSystemAdapter.createUser`. -/
def createUser (s : FsState) (userData : UserData) (id : String) (now : Nat) :
    Except String (User × FsState) :=
  match validateUserCore userData.username userData.email with
  | [] =>
    let user : User :=
      { id := id, username := userData.username, email := userData.email
        passwordHash := userData.passwordHash, tags := userData.tags
        createdAt := .date now, updatedAt := .date now }
    .ok (user, saveIf { s with data := { s.data with users := s.data.users ++ [user] } })
  | errs => .error (validationMsg errs)

/-- Source: `FileSystemAdapter.getUserById`. -/
def getUserById (s : FsState) (id : String) : Except String (Option User) :=
  match validateId id with
  | some e => .error ("Validation failed: " ++ e.message)
  | none => .ok (s.data.users.find? fun u => u.id = id)

/-- Source: `FileSystemAdapter.getUsers`. -/
def getUsers (s : FsState) (opts : QueryOptions) :
    Except String (QueryResult User) :=
  match validateQueryOptions opts with
  | some e => .error ("Validation failed: " ++ e.message)
  | none => .ok (runQuery getFieldU s.data.users opts)

/-- Source: `FileSystemAdapter.updateUser`. -/
def updateUser (s : FsState) (id : String) (p : UserPatch) (now : Nat) :
    Except String (Option User × FsState) :=
  match validateId id with
  | some e => .error ("Validation failed: " ++ e.message)
  | none =>
    match s.data.users.findIdx? (fun u => u.id = id) with
    | none => .ok (none, s)
    | some i =>
      match s.data.users[i]? with
      | none => .ok (none, s)
      | some user =>
        let updatedUser := { mergeUser user p with updatedAt := Ts.date now }
        match validateUserCore updatedUser.username updatedUser.email with
        | [] =>
          .ok (some updatedUser,
            saveIf { s with data := { s.data with users := s.data.users.set i updatedUser } })
        | errs => .error (validationMsg errs)

/-- Source: `FileSystemAdapter.deleteUser`. -/
def deleteUser (s : FsState) (id : String) : Except String (Bool × FsState) :=
  match validateId id with
  | some e => .error ("Validation failed: " ++ e.message)
  | none =>
    match s.data.users.findIdx? (fun u => u.id = id) with
    | none => .ok (false, s)
    | some i =>
      let userRoles := s.data.userRoles.filter fun ur => ur.userId ≠ id
      .ok (true, saveIf
        { s with data :=
          { s.data with users := s.data.users.eraseIdx i, userRoles := userRoles } })

/-- Source: `FileSystemAdapter.createRole`. -/
def createRole (s : FsState) (roleData : RoleData) (id : String) (now : Nat) :
    Except String (Role × FsState) :=
  match validateRoleCore roleData.name with
  | [] =>
    let role : Role :=
      { id := id, name := roleData.name, description := roleData.description
        tags := roleData.tags, createdAt := .date now, updatedAt := .date now }
    .ok (role, saveIf { s with data := { s.data with roles := s.data.roles ++ [role] } })
  | errs => .error (validationMsg errs)

/-- Source: `FileSystemAdapter.getRoleById`. -/
def getRoleById (s : FsState) (id : String) : Except String (Option Role) :=
  match validateId id with
  | some e => .error ("Validation failed: " ++ e.message)
  | none => .ok (s.data.roles.find? fun r => r.id = id)

/-- Source: `FileSystemAdapter.getRoles`. -/
def getRoles (s : FsState) (opts : QueryOptions) :
    Except String (QueryResult Role) :=
  match validateQueryOptions opts with
  | some e => .error ("Validation failed: " ++ e.message)
  | none => .ok (runQuery getFieldR s.data.roles opts)

/-- Source: `FileSystemAdapter.updateRole`. -/
def updateRole (s : FsState) (id : String) (p : RolePatch) (now : Nat) :
    Except String (Option Role × FsState) :=
  match validateId id with
  | some e => .error ("Validation failed: " ++ e.message)
  | none =>
    match s.data.roles.findIdx? (fun r => r.id = id) with
    | none => .ok (none, s)
    | some i =>
      match s.data.roles[i]? with
      | none => .ok (none, s)
      | some role =>
        let updatedRole := { mergeRole role p with updatedAt := Ts.date now }
        match validateRoleCore updatedRole.name with
        | [] =>
          .ok (some updatedRole,
            saveIf { s with data := { s.data with roles := s.data.roles.set i updatedRole } })
        | errs => .error (validationMsg errs)

/-- Source: `FileSystemAdapter.deleteRole`. -/
def deleteRole (s : FsState) (id : String) : Except String (Bool × FsState) :=
  match validateId id with
  | some e => .error ("Validation failed: " ++ e.message)
  | none =>
    match s.data.roles.findIdx? (fun r => r.id = id) with
    | none => .ok (false, s)
    | some i =>
      let userRoles := s.data.userRoles.filter fun ur => ur.roleId ≠ id
      .ok (true, saveIf
        { s with data :=
          { s.data with roles := s.data.roles.eraseIdx i, userRoles := userRoles } })

/-- Source: `FileSystemAdapter.assignRole`: both endpoints must exist in
`this.data` — which during a transaction IS the transaction's working
copy. -/
def assignRole (s : FsState) (userId roleId : String) (now : Nat) :
    Except String (UserRole × FsState) :=
  match validateId userId, validateId roleId with
  | none, none =>
    let userExists := s.data.users.any fun u => u.id = userId
    let roleExists := s.data.roles.any fun r => r.id = roleId
    if !userExists || !roleExists then .error "User or role not found"
    else
      match s.data.userRoles.find? (fun ur => ur.userId = userId && ur.roleId = roleId) with
      | some ur => .ok (ur, s)
      | none =>
        let ur : UserRole := { userId := userId, roleId := roleId, createdAt := .date now }
        .ok (ur, saveIf { s with data := { s.data with userRoles := s.data.userRoles ++ [ur] } })
  | e1, e2 =>
    .error ("Validation failed: " ++
      String.intercalate ", " (([e1, e2].filterMap id).map fun e => e.message))

/-- Source: `FileSystemAdapter.removeRole`: filter out the pair; the file is
rewritten only if something was removed (and no transaction is open). -/
def removeRole (s : FsState) (userId roleId : String) :
    Except String (Bool × FsState) :=
  match validateId userId, validateId roleId with
  | none, none =>
    let newURs := s.data.userRoles.filter fun ur => !(ur.userId = userId && ur.roleId = roleId)
    let removed := newURs.length < s.data.userRoles.length
    let s := { s with data := { s.data with userRoles := newURs } }
    .ok (removed, if removed then saveIf s else s)
  | e1, e2 =>
    .error ("Validation failed: " ++
      String.intercalate ", " (([e1, e2].filterMap id).map fun e => e.message))

/-- Source: `FileSystemAdapter.getUserRoles`. -/
def getUserRoles (s : FsState) (userId : String) : Except String (List Role) :=
  match validateId userId with
  | some e => .error ("Validation failed: " ++ e.message)
  | none =>
    let roleIds := dedupFirst
      ((s.data.userRoles.filter fun ur => ur.userId = userId).map fun ur => ur.roleId)
    .ok (s.data.roles.filter fun r => roleIds.contains r.id)

/-- Source: `FileSystemAdapter.getRoleUsers`. -/
def getRoleUsers (s : FsState) (roleId : String) : Except String (List User) :=
  match validateId roleId with
  | some e => .error ("Validation failed: " ++ e.message)
  | none =>
    let userIds := dedupFirst
      ((s.data.userRoles.filter fun ur => ur.roleId = roleId).map fun ur => ur.userId)
    .ok (s.data.users.filter fun u => userIds.contains u.id)

end FileSystemAdapter

/-! ## Hook engine and manager pipelines -/

/-- A value carried in a `HookEvent` context map. -/
inductive HVal where
  | str (s : String)
  | userData (d : UserData)
  | roleData (d : RoleData)
  | user (u : User)
  | role (r : Role)
  | userRole (ur : UserRole)
  | bool (b : Bool)
deriving DecidableEq, Repr

/-- A `HookEvent`: an open-ended key/value context map. -/
abbrev Ctx := JsMap HVal

/-- The object spread `{ ...a, ...b }`: keys of `a` in order with values
overridden by `b` where present, then the new keys of `b` in their order. -/
def spreadCtx (a b : Ctx) : Ctx :=
  (a.map fun p => (p.1, (JsMap.get b p.1).getD p.2)) ++
    b.filter fun p => !JsMap.has a p.1

/-- A hook callback: observes the current context and may return a
replacement fragment (`.ok (some frag)`), return nothing (`.ok none`) or
throw (`.error`). -/
abbrev HookFn := Ctx → Except Unit (Option Ctx)

/-- src `Hook` (the registered interceptor record). -/
structure Hook where
  name : String
  callback : HookFn
  priority : Int

/-- The `HookManager`'s registry: event name to ordered interceptor list. -/
abbrev HookMgr := JsMap (List Hook)

namespace HookManager

/-- Source: `registerHook`: append, then stable-sort by descending priority
(`(b.priority || 0) - (a.priority || 0)`, `Array.prototype.sort` is
stable, so ties keep registration order). -/
def registerHook (hm : HookMgr) (event : String) (callback : HookFn)
    (priority : Int := 0) : HookMgr :=
  let hooks := (JsMap.get hm event).getD []
  JsMap.set hm event
    (sortByCmp (fun a b => b.priority - a.priority)
      (hooks ++ [{ name := event, callback := callback, priority := priority }]))

/-- The interceptor loop of `executeHooks`: run each hook on the current
context; a returned fragment is spread onto the running context; a thrown
failure is swallowed, leaving the context unchanged by that hook. -/
def runHookList (hooks : List Hook) (ctx : Ctx) : Ctx :=
  hooks.foldl
    (fun result h =>
      match h.callback result with
      | .error _ => result
      | .ok none => result
      | .ok (some frag) => spreadCtx result frag)
    ctx

/-- Source: `HookManager.executeHooks`. -/
def executeHooks (hm : HookMgr) (event : String) (data : Ctx) : Ctx :=
  runHookList ((JsMap.get hm event).getD []) (spreadCtx [] data)

end HookManager

namespace UserManager

/-- Source: `UserManager.createUser`: run the pre-create hooks, call the adapter on
the (possibly transformed) input, run the post-create hooks, and return the
ADAPTER result (`user`) — the post-hook context is not consulted. -/
def createUser (hm : HookMgr) (s : MemState) (userData : UserData)
    (id : String) (now : Nat) : Except String (User × MemState) :=
  let preData := HookManager.executeHooks hm "user.preCreate" [("userData", .userData userData)]
  match JsMap.get preData "userData" with
  | some (.userData ud) =>
    match MemoryAdapter.createUser s ud id now with
    | .error e => .error e
    | .ok (user, s1) =>
      let _postData := HookManager.executeHooks hm "user.postCreate" [("user", .user user)]
      .ok (user, s1)
  | _ => .error "TypeError: invalid userData in hook context"

end UserManager

namespace RoleManager

/-- Source: `RoleManager.createRole`: same pipeline shape as
`UserManager.createUser`; the post-hook context is not consulted. -/
def createRole (hm : HookMgr) (s : MemState) (roleData : RoleData)
    (id : String) (now : Nat) : Except String (Role × MemState) :=
  let preData := HookManager.executeHooks hm "role.preCreate" [("roleData", .roleData roleData)]
  match JsMap.get preData "roleData" with
  | some (.roleData rd) =>
    match MemoryAdapter.createRole s rd id now with
    | .error e => .error e
    | .ok (role, s1) =>
      let _postData := HookManager.executeHooks hm "role.postCreate" [("role", .role role)]
      .ok (role, s1)
  | _ => .error "TypeError: invalid roleData in hook context"

end RoleManager

namespace UserManagement

/-- Source: `UserManagement.assignRole`: pre-assign hooks transform the ids, the
adapter is called, post-assign hooks run, and the ADAPTER result is
returned — the post-hook context is not consulted. -/
def assignRole (hm : HookMgr) (s : MemState) (userId roleId : String)
    (now : Nat) : Except String (UserRole × MemState) :=
  let preData := HookManager.executeHooks hm "userRole.preAssign"
    [("userId", .str userId), ("roleId", .str roleId)]
  match JsMap.get preData "userId", JsMap.get preData "roleId" with
  | some (.str uid), some (.str rid) =>
    match MemoryAdapter.assignRole s uid rid now with
    | .error e => .error e
    | .ok (userRole, s1) =>
      let _postData := HookManager.executeHooks hm "userRole.postAssign"
        [("userRole", .userRole userRole)]
      .ok (userRole, s1)
  | _, _ => .error "TypeError: invalid ids in hook context"

end UserManagement

/-! ## Mutation sequences inside a transaction -/

/-- A mutation of the adapter contract (the non-read, non-transaction
operations), with the ambient id/clock inputs made explicit. -/
inductive Mutation where
  | createUser (d : UserData) (id : String) (now : Nat)
  | updateUser (id : String) (p : UserPatch) (now : Nat)
  | deleteUser (id : String)
  | createRole (d : RoleData) (id : String) (now : Nat)
  | updateRole (id : String) (p : RolePatch) (now : Nat)
  | deleteRole (id : String)
  | assignRole (userId roleId : String) (now : Nat)
  | removeRole (userId roleId : String)

/-- Take the post-state of an operation, or keep the old state if the
operation threw (a thrown error mutates nothing in either adapter). -/
def okOr (s : σ) : Except String (α × σ) → σ
  | .ok (_, s1) => s1
  | .error _ => s

/-- Apply one mutation to a `MemoryAdapter` state. -/
def applyMemMut (s : MemState) : Mutation → MemState
  | .createUser d id now => okOr s (MemoryAdapter.createUser s d id now)
  | .updateUser id p now => okOr s (MemoryAdapter.updateUser s id p now)
  | .deleteUser id => okOr s (MemoryAdapter.deleteUser s id)
  | .createRole d id now => okOr s (MemoryAdapter.createRole s d id now)
  | .updateRole id p now => okOr s (MemoryAdapter.updateRole s id p now)
  | .deleteRole id => okOr s (MemoryAdapter.deleteRole s id)
  | .assignRole uid rid now => okOr s (MemoryAdapter.assignRole s uid rid now)
  | .removeRole uid rid => okOr s (MemoryAdapter.removeRole s uid rid)

/-- Apply one mutation to a `FileSystemAdapter` state. -/
def applyFsMut (s : FsState) : Mutation → FsState
  | .createUser d id now => okOr s (FileSystemAdapter.createUser s d id now)
  | .updateUser id p now => okOr s (FileSystemAdapter.updateUser s id p now)
  | .deleteUser id => okOr s (FileSystemAdapter.deleteUser s id)
  | .createRole d id now => okOr s (FileSystemAdapter.createRole s d id now)
  | .updateRole id p now => okOr s (FileSystemAdapter.updateRole s id p now)
  | .deleteRole id => okOr s (FileSystemAdapter.deleteRole s id)
  | .assignRole uid rid now => okOr s (FileSystemAdapter.assignRole s uid rid now)
  | .removeRole uid rid => okOr s (FileSystemAdapter.removeRole s uid rid)

/-- Source: `beginTransaction`, a sequence of mutations, `rollback` on the
memory adapter. -/
def memTxRun (s : MemState) (muts : List Mutation) : Except String MemState := do
  let s1 ← MemoryAdapter.beginTransaction s
  MemoryAdapter.rollback (muts.foldl applyMemMut s1)

/-- Source: `beginTransaction`, a sequence of mutations, `rollback` on the
filesystem adapter. -/
def fsTxRun (s : FsState) (muts : List Mutation) : Except String FsState := do
  let s1 ← FileSystemAdapter.beginTransaction s
  FileSystemAdapter.rollback (muts.foldl applyFsMut s1)

/-! ## Groundwork lemmas -/

namespace JsMap

theorem get_eq_none_iff {m : JsMap α} {k : String} :
    get m k = none ↔ ∀ p ∈ m, p.1 ≠ k := by
  simp [get, List.find?_eq_none]

theorem get_del_self {m : JsMap α} {k : String} : get (del m k) k = none := by
  rw [get_eq_none_iff]
  intro p hp
  rw [del, List.mem_filter] at hp
  simpa using hp.2

theorem mem_del {m : JsMap α} {k : String} {p : String × α} (h : p ∈ del m k) :
    p ∈ m ∧ p.1 ≠ k := by
  rw [del, List.mem_filter] at h
  exact ⟨h.1, by simpa using h.2⟩

theorem get_some {m : JsMap α} {k : String} {v : α} (h : get m k = some v) :
    (k, v) ∈ m := by
  unfold get at h
  match hf : m.find? fun p => p.1 = k with
  | none => rw [hf] at h; simp at h
  | some p =>
    rw [hf] at h
    simp only [Option.map] at h
    have h1 := List.find?_some hf
    have h2 := List.mem_of_find?_eq_some hf
    simp only [decide_eq_true_eq] at h1
    have hkv : (k, v) = p := by
      cases p
      simp_all
    rw [hkv]
    exact h2

/-- The in-place update `m.map (fun p => if p.1 = k then (k, v) else p)`
found at the updated key. -/
theorem find?_mapUpd_self {m : JsMap α} {k : String} {v : α} :
    (m.map fun p => if p.1 = k then (k, v) else p).find? (fun p => p.1 = k) =
      ((m.find? fun p => p.1 = k).map fun _ => (k, v)) := by
  induction m with
  | nil => rfl
  | cons q m ih =>
    by_cases hq : q.1 = k
    · simp [List.find?_cons, hq]
    · simp only [List.map_cons, if_neg hq, List.find?_cons]
      rw [show decide (q.1 = k) = false from by simp [hq]]
      simpa using ih

/-- The in-place update leaves lookups at other keys unchanged. -/
theorem find?_mapUpd_ne {m : JsMap α} {k k' : String} {v : α} (h : k' ≠ k) :
    (m.map fun p => if p.1 = k then (k, v) else p).find? (fun p => p.1 = k') =
      m.find? (fun p => p.1 = k') := by
  induction m with
  | nil => rfl
  | cons q m ih =>
    by_cases hq : q.1 = k
    · simp only [List.map_cons, if_pos hq, List.find?_cons]
      rw [show decide (k = k') = false from by simp [Ne.symm h],
        show decide (q.1 = k') = false from by simp [hq, Ne.symm h]]
      simpa using ih
    · simp only [List.map_cons, if_neg hq, List.find?_cons]
      cases hd : decide (q.1 = k')
      · simpa using ih
      · rfl

theorem get_set_self {m : JsMap α} {k : String} {v : α} :
    get (set m k v) k = some v := by
  unfold set
  by_cases hhas : has m k = true
  · rw [if_pos hhas]
    unfold get
    rw [find?_mapUpd_self]
    unfold has get at hhas
    match hf : m.find? fun p => p.1 = k with
    | none => rw [hf] at hhas; simp at hhas
    | some p => rw [hf]; rfl
  · rw [if_neg hhas]
    unfold get
    rw [List.find?_append]
    have hnone : m.find? (fun p => p.1 = k) = none := by
      match hf : m.find? fun p => p.1 = k with
      | none => exact hf
      | some p =>
        exfalso
        apply hhas
        unfold has get
        rw [hf]
        rfl
    rw [hnone]
    simp [List.find?_cons]

theorem get_set_ne {m : JsMap α} {k k' : String} {v : α} (h : k' ≠ k) :
    get (set m k v) k' = get m k' := by
  unfold set
  by_cases hhas : has m k = true
  · rw [if_pos hhas]
    unfold get
    rw [find?_mapUpd_ne h]
  · rw [if_neg hhas]
    unfold get
    rw [List.find?_append]
    have hone : ([(k, v)] : JsMap α).find? (fun p => p.1 = k') = none := by
      simp [List.find?_cons, Ne.symm h]
    rw [hone]
    cases m.find? fun p => p.1 = k' <;> rfl

theorem values_map_snd {m : JsMap α} : values m = m.map Prod.snd := rfl

theorem mem_values_of_mem {m : JsMap α} {p : String × α} (h : p ∈ m) :
    p.2 ∈ values m := List.mem_map_of_mem _ h

end JsMap

theorem mem_dedupFirst [DecidableEq α] {l : List α} {a : α} :
    a ∈ dedupFirst l ↔ a ∈ l := by
  induction l using dedupFirst.induct with
  | case1 => simp [dedupFirst]
  | case2 x xs ih =>
    rw [dedupFirst]
    by_cases hax : a = x
    · simp [hax]
    · simp only [List.mem_cons, hax, false_or]
      rw [ih]
      simp [List.mem_filter, hax]

theorem nodup_dedupFirst [DecidableEq α] (l : List α) : (dedupFirst l).Nodup := by
  induction l using dedupFirst.induct with
  | case1 => simp [dedupFirst]
  | case2 x xs ih =>
    rw [dedupFirst]
    refine List.Nodup.cons ?_ ih
    intro hmem
    rw [mem_dedupFirst] at hmem
    have := (List.mem_filter.mp hmem).2
    simp at this

theorem length_insCmp (cmp : α → α → Int) (x : α) (l : List α) :
    (insCmp cmp x l).length = l.length + 1 := by
  induction l with
  | nil => rfl
  | cons y ys ih =>
    rw [insCmp]
    split
    · simp
    · simp [ih]

theorem length_sortByCmp (cmp : α → α → Int) (l : List α) :
    (sortByCmp cmp l).length = l.length := by
  induction l with
  | nil => rfl
  | cons x xs ih =>
    rw [sortByCmp, length_insCmp, ih, List.length_cons]

/-- Source: `total` is recorded before filtering: it is always the full collection
size. -/
theorem runQuery_total (getField : α → String → Value) (xs : List α)
    (opts : QueryOptions) : (runQuery getField xs opts).total = xs.length := rfl

/-- Without a limit, the offset is never read: the pagination block is
guarded by the limit alone. -/
theorem runQuery_no_limit_ignores_offset (getField : α → String → Value)
    (xs : List α) (f : Option QFilter) (sp : Option SortSpec) (o o' : Option Int) :
    runQuery getField xs ⟨f, sp, none, o⟩ = runQuery getField xs ⟨f, sp, none, o'⟩ := rfl

/-- A limit of exactly 0 is falsy: pagination is skipped entirely. -/
theorem runQuery_limit_zero (getField : α → String → Value) (xs : List α)
    (f : Option QFilter) (sp : Option SortSpec) (o o' : Option Int) :
    runQuery getField xs ⟨f, sp, some 0, o⟩ = runQuery getField xs ⟨f, sp, none, o'⟩ := rfl

/-- With pagination skipped, the page is the whole filtered (and sorted)
collection: its length is the number of filter-matching records. -/
theorem runQuery_no_limit_items_length (getField : α → String → Value)
    (xs : List α) (f : QFilter) (sp : Option SortSpec) (o : Option Int) :
    (runQuery getField xs ⟨some f, sp, none, o⟩).items.length =
      xs.countP (matchesFilter getField f) := by
  rw [List.countP_eq_length_filter]
  show (match sp with
    | some sp => sortByCmp (cmpBySpec getField sp) (xs.filter (matchesFilter getField f))
    | none => xs.filter (matchesFilter getField f)).length = _
  cases sp with
  | none => rfl
  | some sp => exact length_sortByCmp _ _

/-! ## Concrete states shared by witnesses and counterexamples -/

/-- A concrete user. -/
def uAlice : User :=
  { id := "u1", username := "alice", email := "a@b.c"
    createdAt := .date 1, updatedAt := .date 1 }

/-- A second concrete user. -/
def uBob : User :=
  { id := "u2", username := "bob", email := "b@b.c"
    createdAt := .date 2, updatedAt := .date 2 }

/-- A concrete role. -/
def rAdmin : Role :=
  { id := "r1", name := "Admin", createdAt := .date 1, updatedAt := .date 1 }

/-- A concrete memory-adapter state with two users and one role. -/
def memS0 : MemState :=
  { users := [("u1", uAlice), ("u2", uBob)], roles := [("r1", rAdmin)], userRoles := [] }

/-- A concrete filesystem-adapter state with two users and one role. -/
def fsS0 : FsState :=
  { data := { users := [uAlice, uBob], roles := [rAdmin], userRoles := [] } }

/-! ## Claim C1 -/

/-- C1 (counterexample): with two stored users and a filter matching only
one of them, `getUsers` reports `total = 2` — the full collection size —
while the number of filter-matching records is 1, so `total` is NOT the
count of records matching the filter. -/
theorem C1_counterexample :
    MemoryAdapter.getUsers memS0 { filter := some [("username", .str "alice")] } =
      .ok ⟨[uAlice], 2⟩ ∧
    (JsMap.values memS0.users).countP
      (matchesFilter getFieldU [("username", .str "alice")]) = 1 ∧
    (2 : Nat) ≠ 1 :=
  ⟨rfl, rfl, by decide⟩

/-- C1 (amended): the `total` returned by `getUsers`/`getRoles` of either
adapter is the size of the whole collection, computed BEFORE the filter is
applied — it counts all records, not the filter-matching ones, regardless
of filter, sort, limit and offset. -/
theorem C1_total_is_prefilter_collection_size :
    (∀ (s : MemState) (opts : QueryOptions),
      (MemoryAdapter.getUsers s opts).map (fun r => r.total) =
        .ok (JsMap.values (MemoryAdapter.getUserMap s)).length) ∧
    (∀ (s : MemState) (opts : QueryOptions),
      (MemoryAdapter.getRoles s opts).map (fun r => r.total) =
        .ok (JsMap.values (MemoryAdapter.getRoleMap s)).length) ∧
    (∀ (s : FsState) (opts : QueryOptions),
      (FileSystemAdapter.getUsers s opts).map (fun r => r.total) =
        .ok s.data.users.length) ∧
    (∀ (s : FsState) (opts : QueryOptions),
      (FileSystemAdapter.getRoles s opts).map (fun r => r.total) =
        .ok s.data.roles.length) :=
  ⟨fun _ _ => rfl, fun _ _ => rfl, fun _ _ => rfl, fun _ _ => rfl⟩

/-! ## Claim C6 -/

/-- C6 (counterexample): two stored users (both filter-matching, N = 2),
offset 1 and NO limit: the claim predicts the records from position 1 to
the end (N − O = 1 item), but `getUsers` returns all 2 records — the
offset is ignored when no limit is given. -/
theorem C6_counterexample :
    MemoryAdapter.getUsers memS0 { offset := some 1 } = .ok ⟨[uAlice, uBob], 2⟩ ∧
    [uAlice, uBob].length ≠ 2 - 1 :=
  ⟨rfl, by decide⟩

/-- C6 (amended): when no limit is given the pagination block is skipped
entirely, so the offset is ignored (not applied): `getUsers`/`getRoles`
return ALL filter-matching records whatever the offset, in both
adapters. -/
theorem C6_no_limit_ignores_offset :
    (∀ (s : MemState) (f : Option QFilter) (sp : Option SortSpec) (o o' : Option Int),
      MemoryAdapter.getUsers s ⟨f, sp, none, o⟩ = MemoryAdapter.getUsers s ⟨f, sp, none, o'⟩) ∧
    (∀ (s : MemState) (f : Option QFilter) (sp : Option SortSpec) (o o' : Option Int),
      MemoryAdapter.getRoles s ⟨f, sp, none, o⟩ = MemoryAdapter.getRoles s ⟨f, sp, none, o'⟩) ∧
    (∀ (s : FsState) (f : Option QFilter) (sp : Option SortSpec) (o o' : Option Int),
      FileSystemAdapter.getUsers s ⟨f, sp, none, o⟩ = FileSystemAdapter.getUsers s ⟨f, sp, none, o'⟩) ∧
    (∀ (s : FsState) (f : Option QFilter) (sp : Option SortSpec) (o o' : Option Int),
      FileSystemAdapter.getRoles s ⟨f, sp, none, o⟩ = FileSystemAdapter.getRoles s ⟨f, sp, none, o'⟩) ∧
    (∀ (s : MemState) (f : QFilter) (sp : Option SortSpec) (o : Option Int),
      (MemoryAdapter.getUsers s ⟨some f, sp, none, o⟩).map (fun r => r.items.length) =
        .ok ((JsMap.values (MemoryAdapter.getUserMap s)).countP (matchesFilter getFieldU f))) ∧
    (∀ (s : FsState) (f : QFilter) (sp : Option SortSpec) (o : Option Int),
      (FileSystemAdapter.getUsers s ⟨some f, sp, none, o⟩).map (fun r => r.items.length) =
        .ok (s.data.users.countP (matchesFilter getFieldU f))) :=
  ⟨fun _ _ _ _ _ => rfl, fun _ _ _ _ _ => rfl, fun _ _ _ _ _ => rfl, fun _ _ _ _ _ => rfl,
    fun _ _ _ _ => congrArg Except.ok (runQuery_no_limit_items_length _ _ _ _ _),
    fun _ _ _ _ => congrArg Except.ok (runQuery_no_limit_items_length _ _ _ _ _)⟩

/-! ## Claim C10 -/

/-- C10 (confirmed): the pagination branch tests the limit's truthiness
(`if (options?.limit)`), and `0` is falsy: with `limit = 0` the query
behaves exactly as with no limit at all, returning every filter-matching
record rather than an empty page, in both adapters. -/
theorem C10_limit_zero_skips_pagination :
    (∀ (s : MemState) (f : Option QFilter) (sp : Option SortSpec) (o o' : Option Int),
      MemoryAdapter.getUsers s ⟨f, sp, some 0, o⟩ = MemoryAdapter.getUsers s ⟨f, sp, none, o'⟩) ∧
    (∀ (s : MemState) (f : Option QFilter) (sp : Option SortSpec) (o o' : Option Int),
      MemoryAdapter.getRoles s ⟨f, sp, some 0, o⟩ = MemoryAdapter.getRoles s ⟨f, sp, none, o'⟩) ∧
    (∀ (s : FsState) (f : Option QFilter) (sp : Option SortSpec) (o o' : Option Int),
      FileSystemAdapter.getUsers s ⟨f, sp, some 0, o⟩ = FileSystemAdapter.getUsers s ⟨f, sp, none, o'⟩) ∧
    (∀ (s : FsState) (f : Option QFilter) (sp : Option SortSpec) (o o' : Option Int),
      FileSystemAdapter.getRoles s ⟨f, sp, some 0, o⟩ = FileSystemAdapter.getRoles s ⟨f, sp, none, o'⟩) ∧
    (∀ (s : MemState) (f : QFilter) (sp : Option SortSpec) (o : Option Int),
      (MemoryAdapter.getUsers s ⟨some f, sp, some 0, o⟩).map (fun r => r.items.length) =
        .ok ((JsMap.values (MemoryAdapter.getUserMap s)).countP (matchesFilter getFieldU f))) ∧
    (∀ (s : FsState) (f : QFilter) (sp : Option SortSpec) (o : Option Int),
      (FileSystemAdapter.getUsers s ⟨some f, sp, some 0, o⟩).map (fun r => r.items.length) =
        .ok (s.data.users.countP (matchesFilter getFieldU f))) := by
  refine ⟨fun _ _ _ _ _ => rfl, fun _ _ _ _ _ => rfl, fun _ _ _ _ _ => rfl,
    fun _ _ _ _ _ => rfl, fun s f sp o => ?_, fun s f sp o => ?_⟩

  · show Except.ok ((runQuery getFieldU (JsMap.values (MemoryAdapter.getUserMap s))
      ⟨some f, sp, some 0, o⟩).items.length) = _
    rw [runQuery_limit_zero getFieldU _ (some f) sp o o]
    exact congrArg Except.ok (runQuery_no_limit_items_length _ _ _ _ _)
  · show Except.ok ((runQuery getFieldU s.data.users
      ⟨some f, sp, some 0, o⟩).items.length) = _
    rw [runQuery_limit_zero getFieldU _ (some f) sp o o]
    exact congrArg Except.ok (runQuery_no_limit_items_length _ _ _ _ _)

/-! ## Transaction invariants -/

/-- Invariant holding while a memory-adapter transaction is open: the live
collections are untouched, the transaction flag is set and the side buffer
present. -/
def memTxInv (u : JsMap User) (r : JsMap Role) (ur : JsMap UserRole)
    (s : MemState) : Prop :=
  s.users = u ∧ s.roles = r ∧ s.userRoles = ur ∧
    s.inTransaction = true ∧ s.transactionData.isSome = true

theorem putUserMap_txInv {s : MemState} {m : JsMap User}
    (h : memTxInv u r ur s) : memTxInv u r ur (MemoryAdapter.putUserMap s m) := by
  obtain ⟨h1, h2, h3, h4, h5⟩ := h
  obtain ⟨td, htd⟩ := Option.isSome_iff_exists.mp h5
  simp [MemoryAdapter.putUserMap, htd, h4, memTxInv, h1, h2, h3]

theorem putRoleMap_txInv {s : MemState} {m : JsMap Role}
    (h : memTxInv u r ur s) : memTxInv u r ur (MemoryAdapter.putRoleMap s m) := by
  obtain ⟨h1, h2, h3, h4, h5⟩ := h
  obtain ⟨td, htd⟩ := Option.isSome_iff_exists.mp h5
  simp [MemoryAdapter.putRoleMap, htd, h4, memTxInv, h1, h2, h3]

theorem putUserRoleMap_txInv {s : MemState} {m : JsMap UserRole}
    (h : memTxInv u r ur s) : memTxInv u r ur (MemoryAdapter.putUserRoleMap s m) := by
  obtain ⟨h1, h2, h3, h4, h5⟩ := h
  obtain ⟨td, htd⟩ := Option.isSome_iff_exists.mp h5
  simp [MemoryAdapter.putUserRoleMap, htd, h4, memTxInv, h1, h2, h3]

/-- No mutation performed while a memory-adapter transaction is open
touches the live collections, the flag or the buffer's presence. -/
theorem applyMemMut_txInv {s : MemState} (mu : Mutation)
    (h : memTxInv u r ur s) : memTxInv u r ur (applyMemMut s mu) := by
  cases mu with
  | createUser d id now =>
    show memTxInv u r ur (okOr s (MemoryAdapter.createUser s d id now))
    unfold MemoryAdapter.createUser
    cases validateUserCore d.username d.email with
    | nil => exact putUserMap_txInv h
    | cons e es => exact h
  | updateUser id p now =>
    show memTxInv u r ur (okOr s (MemoryAdapter.updateUser s id p now))
    unfold MemoryAdapter.updateUser
    cases validateId id with
    | some e => exact h
    | none =>
      dsimp only
      cases JsMap.get (MemoryAdapter.getUserMap s) id with
      | none => exact h
      | some user =>
        dsimp only
        cases validateUserCore (mergeUser user p).username (mergeUser user p).email with
        | nil => exact putUserMap_txInv h
        | cons e es => exact h
  | deleteUser id =>
    show memTxInv u r ur (okOr s (MemoryAdapter.deleteUser s id))
    unfold MemoryAdapter.deleteUser
    cases validateId id with
    | some e => exact h
    | none => exact putUserMap_txInv (putUserRoleMap_txInv h)
  | createRole d id now =>
    show memTxInv u r ur (okOr s (MemoryAdapter.createRole s d id now))
    unfold MemoryAdapter.createRole
    cases validateRoleCore d.name with
    | nil => exact putRoleMap_txInv h
    | cons e es => exact h
  | updateRole id p now =>
    show memTxInv u r ur (okOr s (MemoryAdapter.updateRole s id p now))
    unfold MemoryAdapter.updateRole
    cases validateId id with
    | some e => exact h
    | none =>
      dsimp only
      cases JsMap.get (MemoryAdapter.getRoleMap s) id with
      | none => exact h
      | some role =>
        dsimp only
        cases validateRoleCore (mergeRole role p).name with
        | nil => exact putRoleMap_txInv h
        | cons e es => exact h
  | deleteRole id =>
    show memTxInv u r ur (okOr s (MemoryAdapter.deleteRole s id))
    unfold MemoryAdapter.deleteRole
    cases validateId id with
    | some e => exact h
    | none => exact putRoleMap_txInv (putUserRoleMap_txInv h)
  | assignRole uid rid now =>
    show memTxInv u r ur (okOr s (MemoryAdapter.assignRole s uid rid now))
    unfold MemoryAdapter.assignRole
    cases validateId uid with
    | some e => cases validateId rid <;> exact h
    | none =>
      cases validateId rid with
      | some e => exact h
      | none =>
        dsimp only
        split
        · exact h
        · cases JsMap.get (MemoryAdapter.getUserRoleMap s) (uid ++ ":" ++ rid) with
          | some ur0 => exact h
          | none => exact putUserRoleMap_txInv h
  | removeRole uid rid =>
    show memTxInv u r ur (okOr s (MemoryAdapter.removeRole s uid rid))
    unfold MemoryAdapter.removeRole
    cases validateId uid with
    | some e => cases validateId rid <;> exact h
    | none =>
      cases validateId rid with
      | some e => exact h
      | none => exact putUserRoleMap_txInv h

theorem foldl_applyMemMut_txInv (muts : List Mutation) {s : MemState}
    (h : memTxInv u r ur s) : memTxInv u r ur (muts.foldl applyMemMut s) := by
  induction muts generalizing s with
  | nil => exact h
  | cons m ms ih => exact ih (applyMemMut_txInv m h)

/-- Invariant holding while a filesystem-adapter transaction is open: the
flag stays set, the side buffer is untouched, and — since every mutation
guards its `saveData` behind `!inTransaction` — the file is never
written. -/
def fsTxInv (td0 : Option FsData) (dk : Option FsData) (s : FsState) : Prop :=
  s.inTransaction = true ∧ s.transactionData = td0 ∧ s.disk = dk

theorem saveIf_data_txInv {s : FsState} {d : FsData}
    (h : fsTxInv td0 dk s) : fsTxInv td0 dk (FileSystemAdapter.saveIf { s with data := d }) := by
  obtain ⟨h1, h2, h3⟩ := h
  simp [FileSystemAdapter.saveIf, h1, fsTxInv, h2, h3]

theorem applyFsMut_txInv {s : FsState} (mu : Mutation)
    (h : fsTxInv td0 dk s) : fsTxInv td0 dk (applyFsMut s mu) := by
  cases mu with
  | createUser d id now =>
    show fsTxInv td0 dk (okOr s (FileSystemAdapter.createUser s d id now))
    unfold FileSystemAdapter.createUser
    cases validateUserCore d.username d.email with
    | nil => exact saveIf_data_txInv h
    | cons e es => exact h
  | updateUser id p now =>
    show fsTxInv td0 dk (okOr s (FileSystemAdapter.updateUser s id p now))
    unfold FileSystemAdapter.updateUser
    cases validateId id with
    | some e => exact h
    | none =>
      dsimp only
      cases s.data.users.findIdx? (fun u => u.id = id) with
      | none => exact h
      | some i =>
        dsimp only
        cases s.data.users[i]? with
        | none => exact h
        | some user =>
          dsimp only
          cases hv : validateUserCore (mergeUser user p).username (mergeUser user p).email with
          | nil => exact saveIf_data_txInv h
          | cons e es => exact h
  | deleteUser id =>
    show fsTxInv td0 dk (okOr s (FileSystemAdapter.deleteUser s id))
    unfold FileSystemAdapter.deleteUser
    cases validateId id with
    | some e => exact h
    | none =>
      dsimp only
      cases s.data.users.findIdx? (fun u => u.id = id) with
      | none => exact h
      | some i => exact saveIf_data_txInv h
  | createRole d id now =>
    show fsTxInv td0 dk (okOr s (FileSystemAdapter.createRole s d id now))
    unfold FileSystemAdapter.createRole
    cases validateRoleCore d.name with
    | nil => exact saveIf_data_txInv h
    | cons e es => exact h
  | updateRole id p now =>
    show fsTxInv td0 dk (okOr s (FileSystemAdapter.updateRole s id p now))
    unfold FileSystemAdapter.updateRole
    cases validateId id with
    | some e => exact h
    | none =>
      dsimp only
      cases s.data.roles.findIdx? (fun x => x.id = id) with
      | none => exact h
      | some i =>
        dsimp only
        cases s.data.roles[i]? with
        | none => exact h
        | some role =>
          dsimp only
          cases validateRoleCore (mergeRole role p).name with
          | nil => exact saveIf_data_txInv h
          | cons e es => exact h
  | deleteRole id =>
    show fsTxInv td0 dk (okOr s (FileSystemAdapter.deleteRole s id))
    unfold FileSystemAdapter.deleteRole
    cases validateId id with
    | some e => exact h
    | none =>
      dsimp only
      cases s.data.roles.findIdx? (fun x => x.id = id) with
      | none => exact h
      | some i => exact saveIf_data_txInv h
  | assignRole uid rid now =>
    show fsTxInv td0 dk (okOr s (FileSystemAdapter.assignRole s uid rid now))
    unfold FileSystemAdapter.assignRole
    cases validateId uid with
    | some e => cases validateId rid <;> exact h
    | none =>
      cases validateId rid with
      | some e => exact h
      | none =>
        dsimp only
        split
        · exact h
        · cases s.data.userRoles.find? (fun ur => ur.userId = uid && ur.roleId = rid) with
          | some ur0 => exact h
          | none => exact saveIf_data_txInv h
  | removeRole uid rid =>
    show fsTxInv td0 dk (okOr s (FileSystemAdapter.removeRole s uid rid))
    unfold FileSystemAdapter.removeRole
    cases validateId uid with
    | some e => cases validateId rid <;> exact h
    | none =>
      cases validateId rid with
      | some e => exact h
      | none =>
        dsimp only
        split
        · exact saveIf_data_txInv h
        · obtain ⟨h1, h2, h3⟩ := h
          exact ⟨h1, h2, h3⟩

theorem foldl_applyFsMut_txInv (muts : List Mutation) {s : FsState}
    (h : fsTxInv td0 dk s) : fsTxInv td0 dk (muts.foldl applyFsMut s) := by
  induction muts generalizing s with
  | nil => exact h
  | cons m ms ih => exact ih (applyFsMut_txInv m h)

/-! ## Claim C2 -/

/-- C2 (counterexample): on the FileSystemAdapter, `beginTransaction`
immediately followed by `rollback` (no mutations at all) does NOT restore a
state identical to the pre-begin state: the side buffer is a
`JSON.parse(JSON.stringify(...))` deep copy, so the restored users carry
their timestamps as ISO strings where the pre-begin state held `Date`
values. -/
theorem C2_counterexample :
    fsTxRun fsS0 [] =
      .ok { data := jsonRtData fsS0.data, inTransaction := false
            transactionData := none, disk := none } ∧
    jsonRtData fsS0.data ≠ fsS0.data ∧
    (jsonRtData fsS0.data).users.map User.createdAt = [.iso 1, .iso 2] ∧
    fsS0.data.users.map User.createdAt = [.date 1, .date 2] :=
  ⟨rfl, by decide, rfl, rfl⟩

/-- C2 (amended): for every adapter state with no open transaction and
every sequence of mutations inside the transaction, rollback restores the
pre-begin observable state up to timestamp representation: the
MemoryAdapter restores the live collections exactly (its transaction works
on a side buffer that rollback simply discards); the FileSystemAdapter
restores the JSON round trip of the pre-begin state — same entities and
same timestamp instants, but `Date`-valued timestamp fields come back as
ISO strings — and its snapshot file is never written during the
transaction. -/
theorem memStateExt {a b : MemState} (h1 : a.users = b.users)
    (h2 : a.roles = b.roles) (h3 : a.userRoles = b.userRoles)
    (h4 : a.inTransaction = b.inTransaction)
    (h5 : a.transactionData = b.transactionData) : a = b := by
  cases a; cases b; simp_all

theorem fsStateExt {a b : FsState} (h1 : a.data = b.data)
    (h2 : a.inTransaction = b.inTransaction)
    (h3 : a.transactionData = b.transactionData)
    (h4 : a.disk = b.disk) : a = b := by
  cases a; cases b; simp_all

theorem C2_rollback_restores_pre_transaction_state :
    (∀ (s : MemState) (muts : List Mutation), s.inTransaction = false →
      memTxRun s muts =
        .ok { users := s.users, roles := s.roles, userRoles := s.userRoles
              inTransaction := false, transactionData := none }) ∧
    (∀ (s : FsState) (muts : List Mutation), s.inTransaction = false →
      fsTxRun s muts =
        .ok { data := jsonRtData s.data, inTransaction := false
              transactionData := none, disk := s.disk }) := by
  constructor
  · intro s muts h
    have hb : MemoryAdapter.beginTransaction s =
        .ok { s with inTransaction := true
                     transactionData := some ⟨s.users, s.roles, s.userRoles⟩ } := by
      unfold MemoryAdapter.beginTransaction
      rw [h]
      rfl
    unfold memTxRun
    rw [hb]
    show MemoryAdapter.rollback
      (muts.foldl applyMemMut
        { s with inTransaction := true
                 transactionData := some ⟨s.users, s.roles, s.userRoles⟩ }) = _
    have inv : memTxInv s.users s.roles s.userRoles
        (muts.foldl applyMemMut
          { s with inTransaction := true
                   transactionData := some ⟨s.users, s.roles, s.userRoles⟩ }) :=
      foldl_applyMemMut_txInv muts ⟨rfl, rfl, rfl, rfl, rfl⟩
    obtain ⟨g1, g2, g3, g4, g5⟩ := inv
    obtain ⟨td, htd⟩ := Option.isSome_iff_exists.mp g5
    unfold MemoryAdapter.rollback
    rw [htd]
    dsimp only
    rw [g4]
    exact congrArg Except.ok (memStateExt g1 g2 g3 rfl rfl)
  · intro s muts h
    have hb : FileSystemAdapter.beginTransaction s =
        .ok { s with inTransaction := true
                     transactionData := some (jsonRtData s.data) } := by
      unfold FileSystemAdapter.beginTransaction
      rw [h]
      rfl
    unfold fsTxRun
    rw [hb]
    show FileSystemAdapter.rollback
      (muts.foldl applyFsMut
        { s with inTransaction := true, transactionData := some (jsonRtData s.data) }) = _
    have inv : fsTxInv (some (jsonRtData s.data)) s.disk
        (muts.foldl applyFsMut
          { s with inTransaction := true, transactionData := some (jsonRtData s.data) }) :=
      foldl_applyFsMut_txInv muts ⟨rfl, rfl, rfl⟩
    obtain ⟨g1, g2, g3⟩ := inv
    unfold FileSystemAdapter.rollback
    rw [g2]
    dsimp only
    rw [g1]
    exact congrArg Except.ok (fsStateExt rfl rfl rfl g3)

/-- C2 (witness): the amended theorem instantiated on concrete states with
a role creation inside the transaction. -/
theorem C2_rollback_witness :
    memTxRun memS0 [Mutation.createRole ⟨"Tmp", none, none⟩ "r9" 9] =
      .ok { users := memS0.users, roles := memS0.roles, userRoles := memS0.userRoles
            inTransaction := false, transactionData := none } ∧
    fsTxRun fsS0 [Mutation.createRole ⟨"Tmp", none, none⟩ "r9" 9] =
      .ok { data := jsonRtData fsS0.data, inTransaction := false
            transactionData := none, disk := none } :=
  ⟨C2_rollback_restores_pre_transaction_state.1 memS0 _ rfl,
    C2_rollback_restores_pre_transaction_state.2 fsS0 _ rfl⟩

/-! ## Claim C4 -/

/-- State after `beginTransaction` on `memS0`. -/
def c4s1 : MemState :=
  { users := [("u1", uAlice), ("u2", uBob)], roles := [("r1", rAdmin)], userRoles := []
    inTransaction := true
    transactionData := some ⟨[("u1", uAlice), ("u2", uBob)], [("r1", rAdmin)], []⟩ }

/-- State after deleting user "u1" inside the transaction: gone from the
working copy, still present in the live collections. -/
def c4s2 : MemState :=
  { users := [("u1", uAlice), ("u2", uBob)], roles := [("r1", rAdmin)], userRoles := []
    inTransaction := true
    transactionData := some ⟨[("u2", uBob)], [("r1", rAdmin)], []⟩ }

/-- State after the (successful!) `assignRole` that the claim says must
fail. -/
def c4s3 : MemState :=
  { users := [("u1", uAlice), ("u2", uBob)], roles := [("r1", rAdmin)], userRoles := []
    inTransaction := true
    transactionData := some ⟨[("u2", uBob)], [("r1", rAdmin)],
      [("u1:r1", ⟨"u1", "r1", .date 7⟩)]⟩ }

/-- C4 (counterexample): on the MemoryAdapter, after deleting user "u1"
inside an open transaction (so `getUserById` on the working copy returns
null), `assignRole("u1", "r1")` SUCCEEDS — the existence check consults the
live pre-transaction collections as well — where the claim requires a
referential error. -/
theorem C4_counterexample :
    MemoryAdapter.beginTransaction memS0 = .ok c4s1 ∧
    MemoryAdapter.deleteUser c4s1 "u1" = .ok (true, c4s2) ∧
    MemoryAdapter.getUserById c4s2 "u1" = .ok none ∧
    MemoryAdapter.assignRole c4s2 "u1" "r1" 7 = .ok (⟨"u1", "r1", .date 7⟩, c4s3) :=
  ⟨rfl, rfl, rfl, rfl⟩

/-- C4 (amended): the two adapters check association endpoints against
different states.  The MemoryAdapter accepts the pair whenever the
endpoints exist in the LIVE collections or in the transaction data (their
union): existence in the pre-transaction live state suffices even after an
in-transaction delete.  The FileSystemAdapter checks only `this.data`,
which during a transaction is the working copy: an endpoint absent there
yields the referential error "User or role not found". -/
theorem C4_assign_existence_checks :
    (∀ (s : MemState) (uid rid : String) (now : Nat),
      uid ≠ "" → rid ≠ "" →
      JsMap.has s.users uid = true → JsMap.has s.roles rid = true →
      ∃ ur s1, MemoryAdapter.assignRole s uid rid now = .ok (ur, s1)) ∧
    (∀ (s : FsState) (uid rid : String) (now : Nat),
      uid ≠ "" → rid ≠ "" →
      (s.data.users.any fun u => u.id = uid) = false →
      FileSystemAdapter.assignRole s uid rid now = .error "User or role not found") := by
  constructor
  · intro s uid rid now huid hrid huser hrole
    unfold MemoryAdapter.assignRole
    rw [show validateId uid = none from by simp [validateId, huid],
      show validateId rid = none from by simp [validateId, hrid]]
    dsimp only
    rw [huser, hrole]
    simp only [Bool.true_or, Bool.not_true, Bool.false_or, Bool.or_self, if_false]
    cases JsMap.get (MemoryAdapter.getUserRoleMap s) (uid ++ ":" ++ rid) with
    | some ur0 => exact ⟨ur0, s, rfl⟩
    | none => exact ⟨_, _, rfl⟩
  · intro s uid rid now huid hrid habsent
    unfold FileSystemAdapter.assignRole
    rw [show validateId uid = none from by simp [validateId, huid],
      show validateId rid = none from by simp [validateId, hrid]]
    dsimp only
    rw [habsent]
    rfl

/-- C4 (witness): the amended theorem instantiated on the concrete states:
both endpoints live-present on the memory side; a missing user on the
filesystem side. -/
theorem C4_witness :
    (∃ ur s1, MemoryAdapter.assignRole memS0 "u1" "r1" 7 = .ok (ur, s1)) ∧
    FileSystemAdapter.assignRole fsS0 "zz" "r1" 7 = .error "User or role not found" :=
  ⟨C4_assign_existence_checks.1 memS0 "u1" "r1" 7 (by decide) (by decide) rfl rfl,
    C4_assign_existence_checks.2 fsS0 "zz" "r1" 7 (by decide) (by decide) rfl⟩

/-! ## Claim C5 -/

theorem getUserMap_putUserMap (s : MemState) (m : JsMap User) :
    MemoryAdapter.getUserMap (MemoryAdapter.putUserMap s m) = m := by
  cases s with
  | mk a b c it td => cases td <;> cases it <;> rfl

theorem getRoleMap_putRoleMap (s : MemState) (m : JsMap Role) :
    MemoryAdapter.getRoleMap (MemoryAdapter.putRoleMap s m) = m := by
  cases s with
  | mk a b c it td => cases td <;> cases it <;> rfl

theorem getUserRoleMap_putUserRoleMap (s : MemState) (m : JsMap UserRole) :
    MemoryAdapter.getUserRoleMap (MemoryAdapter.putUserRoleMap s m) = m := by
  cases s with
  | mk a b c it td => cases td <;> cases it <;> rfl

theorem getUserMap_putUserRoleMap (s : MemState) (m : JsMap UserRole) :
    MemoryAdapter.getUserMap (MemoryAdapter.putUserRoleMap s m) =
      MemoryAdapter.getUserMap s := by
  cases s with
  | mk a b c it td => cases td <;> cases it <;> rfl

theorem getRoleMap_putUserRoleMap (s : MemState) (m : JsMap UserRole) :
    MemoryAdapter.getRoleMap (MemoryAdapter.putUserRoleMap s m) =
      MemoryAdapter.getRoleMap s := by
  cases s with
  | mk a b c it td => cases td <;> cases it <;> rfl

theorem getUserRoleMap_putUserMap (s : MemState) (m : JsMap User) :
    MemoryAdapter.getUserRoleMap (MemoryAdapter.putUserMap s m) =
      MemoryAdapter.getUserRoleMap s := by
  cases s with
  | mk a b c it td => cases td <;> cases it <;> rfl

theorem getUserRoleMap_putRoleMap (s : MemState) (m : JsMap Role) :
    MemoryAdapter.getUserRoleMap (MemoryAdapter.putRoleMap s m) =
      MemoryAdapter.getUserRoleMap s := by
  cases s with
  | mk a b c it td => cases td <;> cases it <;> rfl

theorem getRoleMap_putUserMap (s : MemState) (m : JsMap User) :
    MemoryAdapter.getRoleMap (MemoryAdapter.putUserMap s m) =
      MemoryAdapter.getRoleMap s := by
  cases s with
  | mk a b c it td => cases td <;> cases it <;> rfl

theorem getUserMap_putRoleMap (s : MemState) (m : JsMap Role) :
    MemoryAdapter.getUserMap (MemoryAdapter.putRoleMap s m) =
      MemoryAdapter.getUserMap s := by
  cases s with
  | mk a b c it td => cases td <;> cases it <;> rfl

theorem saveIf_data (s : FsState) : (FileSystemAdapter.saveIf s).data = s.data := by
  unfold FileSystemAdapter.saveIf FileSystemAdapter.saveData
  split <;> rfl

/-- Source: `find?` on a list updated at the index of its first `p`-match finds the
new element. -/
theorem find?_set_eq_some {l : List α} {p : α → Bool} {i : Nat} {a : α}
    (hi : i < l.length) (hbef : ∀ j (hj : j < l.length), j < i → p (l[j]) = false)
    (hpa : p a = true) : (l.set i a).find? p = some a := by
  induction l generalizing i with
  | nil => simp at hi
  | cons x xs ih =>
    cases i with
    | zero => simp [List.find?_cons, hpa]
    | succ i =>
      have hx : p x = false := hbef 0 (by simp) (Nat.succ_pos i)
      rw [List.set_cons_succ, List.find?_cons, hx]
      exact ih (Nat.lt_of_succ_lt_succ hi)
        (fun j hj hlt => hbef (j + 1) (Nat.succ_lt_succ hj) (Nat.succ_lt_succ hlt))

/-- The user "u1" after an update whose payload smuggles in `id := "zz"`. -/
def uAliceZ : User := { uAlice with id := "zz", updatedAt := Ts.date 9 }

/-- Memory state after that update: still keyed under "u1", but the record
now carries id "zz". -/
def c5mem : MemState := { memS0 with users := [("u1", uAliceZ), ("u2", uBob)] }

/-- Filesystem state after that update. -/
def c5fs : FsState :=
  { data := ⟨[uAliceZ, uBob], [rAdmin], []⟩
    disk := some (jsonRtData ⟨[uAliceZ, uBob], [rAdmin], []⟩) }

/-- C5 (counterexample): an update payload containing an `id` field
overwrites the stored identifier.  On the MemoryAdapter the record stored
under the original key "u1" now carries id "zz" (not "u1"); on the
FileSystemAdapter the record is no longer retrievable under "u1" at
all. -/
theorem C5_counterexample :
    MemoryAdapter.updateUser memS0 "u1" { id := some "zz" } 9 = .ok (some uAliceZ, c5mem) ∧
    uAliceZ.id ≠ "u1" ∧
    MemoryAdapter.getUserById c5mem "u1" = .ok (some uAliceZ) ∧
    FileSystemAdapter.updateUser fsS0 "u1" { id := some "zz" } 9 = .ok (some uAliceZ, c5fs) ∧
    FileSystemAdapter.getUserById c5fs "u1" = .ok none :=
  ⟨rfl, by decide, rfl, rfl, rfl⟩

theorem mem_updateUser_id_stable {s : MemState} {id : String} {p : UserPatch}
    {now : Nat} {u : User} {s1 : MemState} (hpid : p.id = none)
    (h : MemoryAdapter.updateUser s id p now = .ok (some u, s1)) :
    (∃ orig, JsMap.get (MemoryAdapter.getUserMap s) id = some orig ∧ u.id = orig.id) ∧
      MemoryAdapter.getUserById s1 id = .ok (some u) := by
  unfold MemoryAdapter.updateUser at h
  cases hv : validateId id with
  | some e => rw [hv] at h; simp at h
  | none =>
  rw [hv] at h
  dsimp only at h
  cases hget : JsMap.get (MemoryAdapter.getUserMap s) id with
  | none => rw [hget] at h; simp at h
  | some orig =>
  rw [hget] at h
  dsimp only at h
  cases hval : validateUserCore (mergeUser orig p).username (mergeUser orig p).email with
  | cons e es => rw [hval] at h; simp at h
  | nil =>
  rw [hval] at h
  dsimp only at h
  injection h with h1
  injection h1 with h2 h3
  injection h2 with h4
  subst h3
  subst h4
  refine ⟨⟨orig, rfl, by simp [mergeUser, hpid]⟩, ?_⟩
  unfold MemoryAdapter.getUserById
  rw [hv, getUserMap_putUserMap, JsMap.get_set_self]

theorem mem_updateRole_id_stable {s : MemState} {id : String} {p : RolePatch}
    {now : Nat} {r : Role} {s1 : MemState} (hpid : p.id = none)
    (h : MemoryAdapter.updateRole s id p now = .ok (some r, s1)) :
    (∃ orig, JsMap.get (MemoryAdapter.getRoleMap s) id = some orig ∧ r.id = orig.id) ∧
      MemoryAdapter.getRoleById s1 id = .ok (some r) := by
  unfold MemoryAdapter.updateRole at h
  cases hv : validateId id with
  | some e => rw [hv] at h; simp at h
  | none =>
  rw [hv] at h
  dsimp only at h
  cases hget : JsMap.get (MemoryAdapter.getRoleMap s) id with
  | none => rw [hget] at h; simp at h
  | some orig =>
  rw [hget] at h
  dsimp only at h
  cases hval : validateRoleCore (mergeRole orig p).name with
  | cons e es => rw [hval] at h; simp at h
  | nil =>
  rw [hval] at h
  dsimp only at h
  injection h with h1
  injection h1 with h2 h3
  injection h2 with h4
  subst h3
  subst h4
  refine ⟨⟨orig, rfl, by simp [mergeRole, hpid]⟩, ?_⟩
  unfold MemoryAdapter.getRoleById
  rw [hv, getRoleMap_putRoleMap, JsMap.get_set_self]

theorem fs_updateUser_id_stable {s : FsState} {id : String} {p : UserPatch}
    {now : Nat} {u : User} {s1 : FsState} (hpid : p.id = none)
    (h : FileSystemAdapter.updateUser s id p now = .ok (some u, s1)) :
    u.id = id ∧ FileSystemAdapter.getUserById s1 id = .ok (some u) := by
  unfold FileSystemAdapter.updateUser at h
  cases hv : validateId id with
  | some e => rw [hv] at h; simp at h
  | none =>
  rw [hv] at h
  dsimp only at h
  cases hidx : s.data.users.findIdx? (fun x => x.id = id) with
  | none => rw [hidx] at h; simp at h
  | some i =>
  rw [hidx] at h
  dsimp only at h
  obtain ⟨hilt, hfi⟩ := List.findIdx?_eq_some_iff_findIdx_eq.mp hidx
  cases hgete : s.data.users[i]? with
  | none => rw [hgete] at h; simp at h
  | some user =>
  rw [hgete] at h
  dsimp only at h
  cases hval : validateUserCore (mergeUser user p).username (mergeUser user p).email with
  | cons e es => rw [hval] at h; simp at h
  | nil =>
  rw [hval] at h
  dsimp only at h
  injection h with h1
  injection h1 with h2 h3
  injection h2 with h4
  have huser : s.data.users[i] = user := by
    rw [List.getElem?_eq_getElem hilt] at hgete
    simpa using hgete
  have hbef : ∀ j (hj : j < s.data.users.length), j < i →
      (fun x => decide (x.id = id)) (s.data.users[j]) = false := by
    intro j hj hlt
    subst hfi
    exact List.not_of_lt_findIdx hlt
  have hpu : user.id = id := by
    have hw : List.findIdx (fun x => decide (x.id = id)) s.data.users <
        s.data.users.length := by rw [hfi]; exact hilt
    have h1 := List.findIdx_getElem (w := hw)
    have h2 : s.data.users[List.findIdx (fun x => decide (x.id = id)) s.data.users] = user := by
      subst hfi
      exact huser
    rw [h2] at h1
    simpa using h1
  subst h3
  subst h4
  refine ⟨by simp [mergeUser, hpid, hpu], ?_⟩
  unfold FileSystemAdapter.getUserById
  rw [hv]
  dsimp only
  rw [saveIf_data]
  have : ((s.data.users.set i { mergeUser user p with updatedAt := Ts.date now }).find?
      fun x => x.id = id) = some { mergeUser user p with updatedAt := Ts.date now } := by
    refine find?_set_eq_some hilt hbef ?_
    simp [mergeUser, hpid, hpu]
  rw [this]

theorem fs_updateRole_id_stable {s : FsState} {id : String} {p : RolePatch}
    {now : Nat} {r : Role} {s1 : FsState} (hpid : p.id = none)
    (h : FileSystemAdapter.updateRole s id p now = .ok (some r, s1)) :
    r.id = id ∧ FileSystemAdapter.getRoleById s1 id = .ok (some r) := by
  unfold FileSystemAdapter.updateRole at h
  cases hv : validateId id with
  | some e => rw [hv] at h; simp at h
  | none =>
  rw [hv] at h
  dsimp only at h
  cases hidx : s.data.roles.findIdx? (fun x => x.id = id) with
  | none => rw [hidx] at h; simp at h
  | some i =>
  rw [hidx] at h
  dsimp only at h
  obtain ⟨hilt, hfi⟩ := List.findIdx?_eq_some_iff_findIdx_eq.mp hidx
  cases hgete : s.data.roles[i]? with
  | none => rw [hgete] at h; simp at h
  | some role =>
  rw [hgete] at h
  dsimp only at h
  cases hval : validateRoleCore (mergeRole role p).name with
  | cons e es => rw [hval] at h; simp at h
  | nil =>
  rw [hval] at h
  dsimp only at h
  injection h with h1
  injection h1 with h2 h3
  injection h2 with h4
  have hrole : s.data.roles[i] = role := by
    rw [List.getElem?_eq_getElem hilt] at hgete
    simpa using hgete
  have hbef : ∀ j (hj : j < s.data.roles.length), j < i →
      (fun x => decide (x.id = id)) (s.data.roles[j]) = false := by
    intro j hj hlt
    subst hfi
    exact List.not_of_lt_findIdx hlt
  have hpr : role.id = id := by
    have hw : List.findIdx (fun x => decide (x.id = id)) s.data.roles <
        s.data.roles.length := by rw [hfi]; exact hilt
    have h1 := List.findIdx_getElem (w := hw)
    have h2 : s.data.roles[List.findIdx (fun x => decide (x.id = id)) s.data.roles] = role := by
      subst hfi
      exact hrole
    rw [h2] at h1
    simpa using h1
  subst h3
  subst h4
  refine ⟨by simp [mergeRole, hpid, hpr], ?_⟩
  unfold FileSystemAdapter.getRoleById
  rw [hv]
  dsimp only
  rw [saveIf_data]
  have : ((s.data.roles.set i { mergeRole role p with updatedAt := Ts.date now }).find?
      fun x => x.id = id) = some { mergeRole role p with updatedAt := Ts.date now } := by
    refine find?_set_eq_some hilt hbef ?_
    simp [mergeRole, hpid, hpr]
  rw [this]

/-- C5 (amended): `updateUser`/`updateRole` leave the identifier unchanged
PROVIDED the partial update payload does not itself contain an `id` field:
on the MemoryAdapter the updated record keeps the id of the record
previously stored under the key and remains retrievable there; on the
FileSystemAdapter the updated record keeps the looked-up id and remains
retrievable under it.  (A payload with an `id` field overwrites the stored
id, as the counterexample shows.) -/
theorem C5_update_preserves_id_without_id_field :
    (∀ (s : MemState) (id : String) (p : UserPatch) (now : Nat) (u : User) (s1 : MemState),
      p.id = none → MemoryAdapter.updateUser s id p now = .ok (some u, s1) →
      (∃ orig, JsMap.get (MemoryAdapter.getUserMap s) id = some orig ∧ u.id = orig.id) ∧
        MemoryAdapter.getUserById s1 id = .ok (some u)) ∧
    (∀ (s : MemState) (id : String) (p : RolePatch) (now : Nat) (r : Role) (s1 : MemState),
      p.id = none → MemoryAdapter.updateRole s id p now = .ok (some r, s1) →
      (∃ orig, JsMap.get (MemoryAdapter.getRoleMap s) id = some orig ∧ r.id = orig.id) ∧
        MemoryAdapter.getRoleById s1 id = .ok (some r)) ∧
    (∀ (s : FsState) (id : String) (p : UserPatch) (now : Nat) (u : User) (s1 : FsState),
      p.id = none → FileSystemAdapter.updateUser s id p now = .ok (some u, s1) →
      u.id = id ∧ FileSystemAdapter.getUserById s1 id = .ok (some u)) ∧
    (∀ (s : FsState) (id : String) (p : RolePatch) (now : Nat) (r : Role) (s1 : FsState),
      p.id = none → FileSystemAdapter.updateRole s id p now = .ok (some r, s1) →
      r.id = id ∧ FileSystemAdapter.getRoleById s1 id = .ok (some r)) :=
  ⟨fun _ _ _ _ _ _ h1 h2 => mem_updateUser_id_stable h1 h2,
    fun _ _ _ _ _ _ h1 h2 => mem_updateRole_id_stable h1 h2,
    fun _ _ _ _ _ _ h1 h2 => fs_updateUser_id_stable h1 h2,
    fun _ _ _ _ _ _ h1 h2 => fs_updateRole_id_stable h1 h2⟩

/-- The user "u1" after a benign username update. -/
def uAlice2 : User := { uAlice with username := "al2", updatedAt := Ts.date 9 }

/-- The role "r1" after a benign name update. -/
def rAdmin2 : Role := { rAdmin with name := "Boss", updatedAt := Ts.date 9 }

/-- Memory state after the benign user update. -/
def c5memW : MemState := { memS0 with users := [("u1", uAlice2), ("u2", uBob)] }

/-- Memory state after the benign role update. -/
def c5memR : MemState := { memS0 with roles := [("r1", rAdmin2)] }

/-- Filesystem state after the benign user update. -/
def c5fsW : FsState :=
  { data := ⟨[uAlice2, uBob], [rAdmin], []⟩
    disk := some (jsonRtData ⟨[uAlice2, uBob], [rAdmin], []⟩) }

/-- Filesystem state after the benign role update. -/
def c5fsR : FsState :=
  { data := ⟨[uAlice, uBob], [rAdmin2], []⟩
    disk := some (jsonRtData ⟨[uAlice, uBob], [rAdmin2], []⟩) }

/-- C5 (witness): the amended theorem instantiated on concrete id-free
update payloads for all four operations. -/
theorem C5_witness :
    ((∃ orig, JsMap.get (MemoryAdapter.getUserMap memS0) "u1" = some orig ∧
        uAlice2.id = orig.id) ∧
      MemoryAdapter.getUserById c5memW "u1" = .ok (some uAlice2)) ∧
    ((∃ orig, JsMap.get (MemoryAdapter.getRoleMap memS0) "r1" = some orig ∧
        rAdmin2.id = orig.id) ∧
      MemoryAdapter.getRoleById c5memR "r1" = .ok (some rAdmin2)) ∧
    (uAlice2.id = "u1" ∧ FileSystemAdapter.getUserById c5fsW "u1" = .ok (some uAlice2)) ∧
    (rAdmin2.id = "r1" ∧ FileSystemAdapter.getRoleById c5fsR "r1" = .ok (some rAdmin2)) :=
  ⟨C5_update_preserves_id_without_id_field.1 memS0 "u1" { username := some "al2" } 9
      uAlice2 c5memW rfl rfl,
    C5_update_preserves_id_without_id_field.2.1 memS0 "r1" { name := some "Boss" } 9
      rAdmin2 c5memR rfl rfl,
    C5_update_preserves_id_without_id_field.2.2.1 fsS0 "u1" { username := some "al2" } 9
      uAlice2 c5fsW rfl rfl,
    C5_update_preserves_id_without_id_field.2.2.2 fsS0 "r1" { name := some "Boss" } 9
      rAdmin2 c5fsR rfl rfl⟩

/-! ## Claim C3 -/

/-- A role that a post-create hook tries to substitute for the result. -/
def rOther : Role := { id := "rX", name := "Other", createdAt := .date 0, updatedAt := .date 0 }

/-- The role actually created by the adapter in the counterexample. -/
def rCreated : Role := { id := "r2", name := "Admin2", createdAt := .date 5, updatedAt := .date 5 }

/-- A post-create hook returning a replacement context fragment that swaps
the created role for `rOther`. -/
def c3hook : Hook :=
  { name := "role.postCreate", callback := fun _ => .ok (some [("role", .role rOther)])
    priority := 0 }

/-- A registry with only that post-create hook. -/
def c3hm : HookMgr := [("role.postCreate", [c3hook])]

/-- Memory state after the counterexample's `createRole`. -/
def c3mem : MemState := { memS0 with roles := [("r1", rAdmin), ("r2", rCreated)] }

/-- C3 (counterexample): a registered post-create hook returns a
replacement context fragment carrying `rOther`, and the executed post-hook
context indeed holds `rOther` — but `createRole` returns the adapter's
untransformed `rCreated`, not the post-hook-transformed result. -/
theorem C3_counterexample :
    RoleManager.createRole c3hm memS0 ⟨"Admin2", none, none⟩ "r2" 5 =
      .ok (rCreated, c3mem) ∧
    HookManager.executeHooks c3hm "role.postCreate" [("role", .role rCreated)] =
      [("role", .role rOther)] ∧
    rCreated ≠ rOther :=
  ⟨rfl, rfl, by decide⟩

/-- C3 (amended): the pipeline executes all post-hooks and lets them
observe the result, but the merged context they produce is discarded: the
value returned to the caller is always the adapter's untransformed result
(only pre-hooks can transform the operation's input).  Formally, the
outcome of `createUser`/`createRole`/`assignRole` is unchanged if the
post-event hook list is replaced by any other list. -/
theorem C3_post_hooks_cannot_transform_result :
    (∀ (hm : HookMgr) (hooks2 : List Hook) (s : MemState) (d : UserData)
        (id : String) (now : Nat),
      UserManager.createUser (JsMap.set hm "user.postCreate" hooks2) s d id now =
        UserManager.createUser (JsMap.set hm "user.postCreate" []) s d id now) ∧
    (∀ (hm : HookMgr) (hooks2 : List Hook) (s : MemState) (d : RoleData)
        (id : String) (now : Nat),
      RoleManager.createRole (JsMap.set hm "role.postCreate" hooks2) s d id now =
        RoleManager.createRole (JsMap.set hm "role.postCreate" []) s d id now) ∧
    (∀ (hm : HookMgr) (hooks2 : List Hook) (s : MemState) (uid rid : String) (now : Nat),
      UserManagement.assignRole (JsMap.set hm "userRole.postAssign" hooks2) s uid rid now =
        UserManagement.assignRole (JsMap.set hm "userRole.postAssign" []) s uid rid now) := by
  refine ⟨fun hm hooks2 s d id now => ?_, fun hm hooks2 s d id now => ?_,
    fun hm hooks2 s uid rid now => ?_⟩
  · unfold UserManager.createUser HookManager.executeHooks
    rw [show JsMap.get (JsMap.set hm "user.postCreate" hooks2) "user.preCreate" =
          JsMap.get hm "user.preCreate" from JsMap.get_set_ne (by decide),
      show JsMap.get (JsMap.set hm "user.postCreate" ([] : List Hook)) "user.preCreate" =
          JsMap.get hm "user.preCreate" from JsMap.get_set_ne (by decide)]
  · unfold RoleManager.createRole HookManager.executeHooks
    rw [show JsMap.get (JsMap.set hm "role.postCreate" hooks2) "role.preCreate" =
          JsMap.get hm "role.preCreate" from JsMap.get_set_ne (by decide),
      show JsMap.get (JsMap.set hm "role.postCreate" ([] : List Hook)) "role.preCreate" =
          JsMap.get hm "role.preCreate" from JsMap.get_set_ne (by decide)]
  · unfold UserManagement.assignRole HookManager.executeHooks
    rw [show JsMap.get (JsMap.set hm "userRole.postAssign" hooks2) "userRole.preAssign" =
          JsMap.get hm "userRole.preAssign" from JsMap.get_set_ne (by decide),
      show JsMap.get (JsMap.set hm "userRole.postAssign" ([] : List Hook)) "userRole.preAssign" =
          JsMap.get hm "userRole.preAssign" from JsMap.get_set_ne (by decide)]

/-! ## Claim C9 -/

/-- C9 (confirmed): the interceptor loop swallows failures.  (1) A hook
whose callback always throws contributes nothing: running the chain with it
inserted anywhere equals running the chain without it — the failure never
propagates, the context is unchanged by that interceptor, and the remaining
interceptors still run.  (2) Registering such a throwing hook on
`user.preCreate` leaves `createUser` exactly as with no hooks at all.
(3) With no hooks, `createUser` is exactly the adapter call on the original
input — so the throwing interceptor does not prevent `createUser` from
completing with its original input. -/
theorem C9_interceptor_failures_swallowed :
    (∀ (pre post : List Hook) (h : Hook) (ctx : Ctx),
      (∀ c, h.callback c = .error ()) →
      HookManager.runHookList (pre ++ h :: post) ctx =
        HookManager.runHookList (pre ++ post) ctx) ∧
    (∀ (s : MemState) (d : UserData) (id : String) (now : Nat) (cb : HookFn) (prio : Int),
      (∀ c, cb c = .error ()) →
      UserManager.createUser (HookManager.registerHook [] "user.preCreate" cb prio) s d id now =
        UserManager.createUser [] s d id now) ∧
    (∀ (s : MemState) (d : UserData) (id : String) (now : Nat),
      UserManager.createUser [] s d id now = MemoryAdapter.createUser s d id now) := by
  refine ⟨fun pre post h ctx hcb => ?_, fun s d id now cb prio hcb => ?_,
    fun s d id now => ?_⟩
  · unfold HookManager.runHookList
    simp only [List.foldl_append, List.foldl_cons]
    rw [hcb]
  · unfold UserManager.createUser
    have h1 : HookManager.executeHooks (HookManager.registerHook [] "user.preCreate" cb prio)
        "user.preCreate" [("userData", .userData d)] = [("userData", .userData d)] := by
      show HookManager.runHookList [{ name := "user.preCreate", callback := cb, priority := prio }]
        (spreadCtx [] [("userData", .userData d)]) = _
      unfold HookManager.runHookList
      simp only [List.foldl_cons]
      rw [hcb]
      rfl
    rw [h1]
    rfl
  · unfold UserManager.createUser
    show (match MemoryAdapter.createUser s d id now with
      | .error e => .error e
      | .ok (user, s1) => .ok (user, s1)) = MemoryAdapter.createUser s d id now
    cases hres : MemoryAdapter.createUser s d id now with
    | error e => rfl
    | ok p => cases p; rfl

/-- A hook that always throws. -/
def throwHook : Hook := { name := "x", callback := fun _ => .error (), priority := 0 }

/-- A concrete creation payload. -/
def udCarol : UserData := { username := "carol", email := "c@b.c" }

/-- C9 (witness): the theorem instantiated on a concrete always-throwing
callback, concrete chains and a concrete `createUser` call. -/
theorem C9_witness :
    HookManager.runHookList [throwHook] [] = HookManager.runHookList [] [] ∧
    UserManager.createUser
        (HookManager.registerHook [] "user.preCreate" (fun _ => .error ()) 0)
        memS0 udCarol "u9" 9 =
      UserManager.createUser [] memS0 udCarol "u9" 9 ∧
    UserManager.createUser [] memS0 udCarol "u9" 9 =
      MemoryAdapter.createUser memS0 udCarol "u9" 9 :=
  ⟨C9_interceptor_failures_swallowed.1 [] [] throwHook [] (fun _ => rfl),
    C9_interceptor_failures_swallowed.2.1 memS0 udCarol "u9" 9 (fun _ => .error ()) 0
      (fun _ => rfl),
    C9_interceptor_failures_swallowed.2.2 memS0 udCarol "u9" 9⟩

/-! ## Claim C7 -/

/-- If the images of a list under `f` are pairwise distinct, at most one
element maps to any given value. -/
theorem countP_le_one_of_nodup_map [DecidableEq β] {l : List α} {f : α → β}
    (h : (l.map f).Nodup) (b : β) : l.countP (fun x => f x = b) ≤ 1 := by
  induction l with
  | nil => simp
  | cons x xs ih =>
    rw [List.map_cons, List.nodup_cons] at h
    rw [List.countP_cons]
    by_cases hx : f x = b
    · have hz : xs.countP (fun y => f y = b) = 0 := by
        rw [List.countP_eq_zero]
        intro a ha
        simp only [decide_eq_true_eq]
        intro hab
        exact h.1 (by rw [hx, ← hab]; exact List.mem_map_of_mem f ha)
      simp [hx, hz]
    · simpa [hx] using ih h.2

/-- Erasing the first `p`-match from a list holding at most one `p`-match
leaves no `p`-match. -/
theorem find?_eraseIdx_eq_none {l : List α} {p : α → Bool} {i : Nat}
    (hidx : l.findIdx? p = some i) (hcount : l.countP p ≤ 1) :
    (l.eraseIdx i).find? p = none := by
  induction l generalizing i with
  | nil => simp at hidx
  | cons x xs ih =>
    rw [List.findIdx?_cons] at hidx
    by_cases hp : p x = true
    · rw [if_pos hp] at hidx
      injection hidx with hi
      subst hi
      rw [List.eraseIdx_cons_zero, List.find?_eq_none]
      intro a ha
      rw [List.countP_cons, if_pos hp] at hcount
      have hz : xs.countP p = 0 := by omega
      exact (List.countP_eq_zero.mp hz) a ha
    · rw [if_neg hp, List.findIdx?_succ] at hidx
      match hx : xs.findIdx? p with
      | none => rw [hx] at hidx; simp at hidx
      | some j =>
        rw [hx] at hidx
        simp only [Option.map] at hidx
        injection hidx with hi
        subst hi
        rw [List.eraseIdx_cons_succ, List.find?_cons]
        rw [show p x = false from by simpa using hp]
        have hcount2 : xs.countP p ≤ 1 := by
          rw [List.countP_cons] at hcount
          omega
        exact ih hx hcount2

theorem mem_deleteUser_cascades {s : MemState} {uid : String} {b : Bool} {s1 : MemState}
    (hWF : ∀ p ∈ MemoryAdapter.getUserMap s, p.2.id = p.1)
    (h : MemoryAdapter.deleteUser s uid = .ok (b, s1)) :
    MemoryAdapter.getUserById s1 uid = .ok none ∧
    (∀ p ∈ MemoryAdapter.getUserRoleMap s1, p.2.userId ≠ uid) ∧
    (∀ (rid : String) (l : List User), MemoryAdapter.getRoleUsers s1 rid = .ok l →
      ∀ u ∈ l, u.id ≠ uid) := by
  unfold MemoryAdapter.deleteUser at h
  cases hv : validateId uid with
  | some e => rw [hv] at h; simp at h
  | none =>
  rw [hv] at h
  dsimp only at h
  injection h with h1
  injection h1 with h2 h3
  subst h3
  refine ⟨?_, ?_, ?_⟩
  · unfold MemoryAdapter.getUserById
    rw [hv, getUserMap_putUserMap, JsMap.get_del_self]
  · intro p hp
    rw [getUserRoleMap_putUserMap, getUserRoleMap_putUserRoleMap] at hp
    have := (List.mem_filter.mp hp).2
    simpa using this
  · intro rid l hrl u hu
    unfold MemoryAdapter.getRoleUsers at hrl
    cases hvr : validateId rid with
    | some e => rw [hvr] at hrl; simp at hrl
    | none =>
    rw [hvr] at hrl
    dsimp only at hrl
    injection hrl with h4
    subst h4
    obtain ⟨k, hk, hku⟩ := List.mem_filterMap.mp hu
    rw [getUserMap_putUserMap] at hku
    obtain ⟨hmem, hne⟩ := JsMap.mem_del (JsMap.get_some hku)
    rw [hWF (k, u) hmem]
    exact hne

theorem mem_deleteRole_cascades {s : MemState} {rid : String} {b : Bool} {s1 : MemState}
    (hWF : ∀ p ∈ MemoryAdapter.getRoleMap s, p.2.id = p.1)
    (h : MemoryAdapter.deleteRole s rid = .ok (b, s1)) :
    MemoryAdapter.getRoleById s1 rid = .ok none ∧
    (∀ p ∈ MemoryAdapter.getUserRoleMap s1, p.2.roleId ≠ rid) ∧
    (∀ (uid : String) (l : List Role), MemoryAdapter.getUserRoles s1 uid = .ok l →
      ∀ r ∈ l, r.id ≠ rid) := by
  unfold MemoryAdapter.deleteRole at h
  cases hv : validateId rid with
  | some e => rw [hv] at h; simp at h
  | none =>
  rw [hv] at h
  dsimp only at h
  injection h with h1
  injection h1 with h2 h3
  subst h3
  refine ⟨?_, ?_, ?_⟩
  · unfold MemoryAdapter.getRoleById
    rw [hv, getRoleMap_putRoleMap, JsMap.get_del_self]
  · intro p hp
    rw [getUserRoleMap_putRoleMap, getUserRoleMap_putUserRoleMap] at hp
    have := (List.mem_filter.mp hp).2
    simpa using this
  · intro uid l hrl r hr
    unfold MemoryAdapter.getUserRoles at hrl
    cases hvr : validateId uid with
    | some e => rw [hvr] at hrl; simp at hrl
    | none =>
    rw [hvr] at hrl
    dsimp only at hrl
    injection hrl with h4
    subst h4
    obtain ⟨k, hk, hkr⟩ := List.mem_filterMap.mp hr
    rw [getRoleMap_putRoleMap] at hkr
    obtain ⟨hmem, hne⟩ := JsMap.mem_del (JsMap.get_some hkr)
    rw [hWF (k, r) hmem]
    exact hne

theorem fs_deleteUser_cascades {s : FsState} {uid : String} {b : Bool} {s1 : FsState}
    (hNodup : (s.data.users.map User.id).Nodup)
    (hEx : (s.data.users.any fun u => u.id = uid) = true)
    (h : FileSystemAdapter.deleteUser s uid = .ok (b, s1)) :
    b = true ∧
    FileSystemAdapter.getUserById s1 uid = .ok none ∧
    (∀ ur ∈ s1.data.userRoles, ur.userId ≠ uid) ∧
    (∀ (rid : String) (l : List User), FileSystemAdapter.getRoleUsers s1 rid = .ok l →
      ∀ u ∈ l, u.id ≠ uid) := by
  unfold FileSystemAdapter.deleteUser at h
  cases hv : validateId uid with
  | some e => rw [hv] at h; simp at h
  | none =>
  rw [hv] at h
  dsimp only at h
  cases hidx : s.data.users.findIdx? (fun u => u.id = uid) with
  | none =>
    exfalso
    obtain ⟨x, hx, hpx⟩ := List.any_eq_true.mp hEx
    have hlt : List.findIdx (fun u => decide (u.id = uid)) s.data.users <
        s.data.users.length :=
      List.findIdx_lt_length_of_exists ⟨x, hx, hpx⟩
    have hsome := List.findIdx?_eq_some_iff_findIdx_eq.mpr ⟨hlt, rfl⟩
    rw [hidx] at hsome
    simp at hsome
  | some i =>
  rw [hidx] at h
  dsimp only at h
  injection h with h1
  injection h1 with h2 h3
  subst h2
  subst h3
  obtain ⟨hilt, hfi⟩ := List.findIdx?_eq_some_iff_findIdx_eq.mp hidx
  have hcount : s.data.users.countP (fun x => x.id = uid) ≤ 1 :=
    countP_le_one_of_nodup_map hNodup uid
  have hfind : ((s.data.users.eraseIdx i).find? fun x => x.id = uid) = none :=
    find?_eraseIdx_eq_none hidx hcount
  refine ⟨rfl, ?_, ?_, ?_⟩
  · unfold FileSystemAdapter.getUserById
    rw [hv]
    dsimp only
    rw [saveIf_data]
    dsimp only
    rw [hfind]
  · intro ur hur
    rw [saveIf_data] at hur
    have := (List.mem_filter.mp hur).2
    simpa using this
  · intro rid l hrl u hu
    unfold FileSystemAdapter.getRoleUsers at hrl
    cases hvr : validateId rid with
    | some e => rw [hvr] at hrl; simp at hrl
    | none =>
    rw [hvr] at hrl
    dsimp only at hrl
    injection hrl with h4
    subst h4
    rw [saveIf_data] at hu
    have humem : u ∈ s.data.users.eraseIdx i := (List.mem_filter.mp hu).1
    intro hid
    have := List.find?_eq_none.mp hfind u humem
    simp [hid] at this

theorem fs_deleteRole_cascades {s : FsState} {rid : String} {b : Bool} {s1 : FsState}
    (hNodup : (s.data.roles.map Role.id).Nodup)
    (hEx : (s.data.roles.any fun r => r.id = rid) = true)
    (h : FileSystemAdapter.deleteRole s rid = .ok (b, s1)) :
    b = true ∧
    FileSystemAdapter.getRoleById s1 rid = .ok none ∧
    (∀ ur ∈ s1.data.userRoles, ur.roleId ≠ rid) ∧
    (∀ (uid : String) (l : List Role), FileSystemAdapter.getUserRoles s1 uid = .ok l →
      ∀ r ∈ l, r.id ≠ rid) := by
  unfold FileSystemAdapter.deleteRole at h
  cases hv : validateId rid with
  | some e => rw [hv] at h; simp at h
  | none =>
  rw [hv] at h
  dsimp only at h
  cases hidx : s.data.roles.findIdx? (fun r => r.id = rid) with
  | none =>
    exfalso
    obtain ⟨x, hx, hpx⟩ := List.any_eq_true.mp hEx
    have hlt : List.findIdx (fun r => decide (r.id = rid)) s.data.roles <
        s.data.roles.length :=
      List.findIdx_lt_length_of_exists ⟨x, hx, hpx⟩
    have hsome := List.findIdx?_eq_some_iff_findIdx_eq.mpr ⟨hlt, rfl⟩
    rw [hidx] at hsome
    simp at hsome
  | some i =>
  rw [hidx] at h
  dsimp only at h
  injection h with h1
  injection h1 with h2 h3
  subst h2
  subst h3
  obtain ⟨hilt, hfi⟩ := List.findIdx?_eq_some_iff_findIdx_eq.mp hidx
  have hcount : s.data.roles.countP (fun x => x.id = rid) ≤ 1 :=
    countP_le_one_of_nodup_map hNodup rid
  have hfind : ((s.data.roles.eraseIdx i).find? fun x => x.id = rid) = none :=
    find?_eraseIdx_eq_none hidx hcount
  refine ⟨rfl, ?_, ?_, ?_⟩
  · unfold FileSystemAdapter.getRoleById
    rw [hv]
    dsimp only
    rw [saveIf_data]
    dsimp only
    rw [hfind]
  · intro ur hur
    rw [saveIf_data] at hur
    have := (List.mem_filter.mp hur).2
    simpa using this
  · intro uid l hrl r hr
    unfold FileSystemAdapter.getUserRoles at hrl
    cases hvr : validateId uid with
    | some e => rw [hvr] at hrl; simp at hrl
    | none =>
    rw [hvr] at hrl
    dsimp only at hrl
    injection hrl with h4
    subst h4
    rw [saveIf_data] at hr
    have hrmem : r ∈ s.data.roles.eraseIdx i := (List.mem_filter.mp hr).1
    intro hid
    have := List.find?_eq_none.mp hfind r hrmem
    simp [hid] at this

/-- C7 (confirmed): deleting a user removes every association referencing
it before removing the entity, so afterwards the user is not retrievable
and no role's principal list contains it; deleting a role is symmetric.
Holds in both adapters (the memory side under the invariant that map
values carry their key as id; the filesystem side under distinctness of
stored ids, both guaranteed by the creation path). -/
theorem C7_delete_cascades_associations :
    (∀ (s : MemState) (uid : String) (b : Bool) (s1 : MemState),
      (∀ p ∈ MemoryAdapter.getUserMap s, p.2.id = p.1) →
      MemoryAdapter.deleteUser s uid = .ok (b, s1) →
      MemoryAdapter.getUserById s1 uid = .ok none ∧
      (∀ p ∈ MemoryAdapter.getUserRoleMap s1, p.2.userId ≠ uid) ∧
      (∀ (rid : String) (l : List User), MemoryAdapter.getRoleUsers s1 rid = .ok l →
        ∀ u ∈ l, u.id ≠ uid)) ∧
    (∀ (s : MemState) (rid : String) (b : Bool) (s1 : MemState),
      (∀ p ∈ MemoryAdapter.getRoleMap s, p.2.id = p.1) →
      MemoryAdapter.deleteRole s rid = .ok (b, s1) →
      MemoryAdapter.getRoleById s1 rid = .ok none ∧
      (∀ p ∈ MemoryAdapter.getUserRoleMap s1, p.2.roleId ≠ rid) ∧
      (∀ (uid : String) (l : List Role), MemoryAdapter.getUserRoles s1 uid = .ok l →
        ∀ r ∈ l, r.id ≠ rid)) ∧
    (∀ (s : FsState) (uid : String) (b : Bool) (s1 : FsState),
      (s.data.users.map User.id).Nodup →
      (s.data.users.any fun u => u.id = uid) = true →
      FileSystemAdapter.deleteUser s uid = .ok (b, s1) →
      b = true ∧
      FileSystemAdapter.getUserById s1 uid = .ok none ∧
      (∀ ur ∈ s1.data.userRoles, ur.userId ≠ uid) ∧
      (∀ (rid : String) (l : List User), FileSystemAdapter.getRoleUsers s1 rid = .ok l →
        ∀ u ∈ l, u.id ≠ uid)) ∧
    (∀ (s : FsState) (rid : String) (b : Bool) (s1 : FsState),
      (s.data.roles.map Role.id).Nodup →
      (s.data.roles.any fun r => r.id = rid) = true →
      FileSystemAdapter.deleteRole s rid = .ok (b, s1) →
      b = true ∧
      FileSystemAdapter.getRoleById s1 rid = .ok none ∧
      (∀ ur ∈ s1.data.userRoles, ur.roleId ≠ rid) ∧
      (∀ (uid : String) (l : List Role), FileSystemAdapter.getUserRoles s1 uid = .ok l →
        ∀ r ∈ l, r.id ≠ rid)) :=
  ⟨fun _ _ _ _ h1 h2 => mem_deleteUser_cascades h1 h2,
    fun _ _ _ _ h1 h2 => mem_deleteRole_cascades h1 h2,
    fun _ _ _ _ h1 h2 h3 => fs_deleteUser_cascades h1 h2 h3,
    fun _ _ _ _ h1 h2 h3 => fs_deleteRole_cascades h1 h2 h3⟩

/-- A memory state with one association, about to lose an endpoint. -/
def c7mem0 : MemState :=
  { users := [("u1", uAlice), ("u2", uBob)], roles := [("r1", rAdmin)]
    userRoles := [("u1:r1", ⟨"u1", "r1", .date 3⟩)] }

/-- Source: `c7mem0` after deleting user "u1". -/
def c7mem1 : MemState :=
  { users := [("u2", uBob)], roles := [("r1", rAdmin)], userRoles := [] }

/-- Source: `c7mem0` after deleting role "r1". -/
def c7mem2 : MemState :=
  { users := [("u1", uAlice), ("u2", uBob)], roles := [], userRoles := [] }

/-- A filesystem state with one association, about to lose an endpoint. -/
def c7fs0 : FsState :=
  { data := ⟨[uAlice, uBob], [rAdmin], [⟨"u1", "r1", .date 3⟩]⟩ }

/-- Source: `c7fs0` after deleting user "u1". -/
def c7fs1 : FsState :=
  { data := ⟨[uBob], [rAdmin], []⟩, disk := some (jsonRtData ⟨[uBob], [rAdmin], []⟩) }

/-- Source: `c7fs0` after deleting role "r1". -/
def c7fs2 : FsState :=
  { data := ⟨[uAlice, uBob], [], []⟩
    disk := some (jsonRtData ⟨[uAlice, uBob], [], []⟩) }

/-- C7 (witness): the theorem applied to concrete deletions in both
adapters, with every hypothesis discharged by computation. -/
theorem C7_witness :
    MemoryAdapter.getUserById c7mem1 "u1" = .ok none ∧
    MemoryAdapter.getRoleById c7mem2 "r1" = .ok none ∧
    FileSystemAdapter.getUserById c7fs1 "u1" = .ok none ∧
    FileSystemAdapter.getRoleById c7fs2 "r1" = .ok none :=
  ⟨(C7_delete_cascades_associations.1 c7mem0 "u1" true c7mem1 (by decide) rfl).1,
    (C7_delete_cascades_associations.2.1 c7mem0 "r1" true c7mem2 (by decide) rfl).1,
    (C7_delete_cascades_associations.2.2.1 c7fs0 "u1" true c7fs1 (by decide) rfl rfl).2.1,
    (C7_delete_cascades_associations.2.2.2 c7fs0 "r1" true c7fs2 (by decide) rfl rfl).2.1⟩

/-! ## Claim C8 -/

theorem append_colon_inj {a b c d : List Char} (ha : ':' ∉ a) (hc : ':' ∉ c)
    (h : a ++ ':' :: b = c ++ ':' :: d) : a = c ∧ b = d := by
  induction a generalizing c with
  | nil =>
    cases c with
    | nil => simpa using h
    | cons x xs =>
      exfalso
      rw [List.nil_append, List.cons_append, List.cons.injEq] at h
      exact hc (h.1 ▸ List.mem_cons_self x xs)
  | cons y ys ih =>
    cases c with
    | nil =>
      exfalso
      rw [List.nil_append, List.cons_append, List.cons.injEq] at h
      exact ha (h.1 ▸ List.mem_cons_self y ys)
    | cons x xs =>
      rw [List.cons_append, List.cons_append, List.cons.injEq] at h
      obtain ⟨rfl, htl⟩ := h
      have := ih (fun hm => ha (List.mem_cons_of_mem _ hm))
        (fun hm => hc (List.mem_cons_of_mem _ hm)) htl
      exact ⟨by rw [this.1], this.2⟩

theorem stringExt {a b : String} (h : a.data = b.data) : a = b := by
  cases a
  cases b
  exact congrArg String.mk h

/-- The `userId:roleId` key encoding is injective for colon-free ids. -/
theorem key_encoding_inj {u1 r1 u2 r2 : String} (h1 : ':' ∉ u1.data)
    (h2 : ':' ∉ u2.data) (h : u1 ++ ":" ++ r1 = u2 ++ ":" ++ r2) :
    u1 = u2 ∧ r1 = r2 := by
  have hd := congrArg String.data h
  rw [String.data_append, String.data_append, String.data_append, String.data_append] at hd
  rw [show (":" : String).data = [':'] from rfl] at hd
  rw [List.append_assoc, List.append_assoc] at hd
  simp only [List.singleton_append] at hd
  obtain ⟨hu, hr⟩ := append_colon_inj h1 h2 hd
  exact ⟨stringExt hu, stringExt hr⟩

/-- Resolving no occurrence of `rid` yields no role with id `rid`. -/
theorem countP_filterMap_get_zero {roles : JsMap Role} {ids : List String} {rid : String}
    (hWF : ∀ p ∈ roles, p.2.id = p.1) (hmem : rid ∉ ids) :
    (ids.filterMap fun k => JsMap.get roles k).countP (fun r => r.id = rid) = 0 := by
  rw [List.countP_eq_zero]
  intro r hr
  obtain ⟨k, hk, hkr⟩ := List.mem_filterMap.mp hr
  have : r.id = k := hWF (k, r) (JsMap.get_some hkr)
  simp only [decide_eq_true_eq, this]
  intro hkrid
  exact hmem (hkrid ▸ hk)

/-- Resolving a duplicate-free id list containing `rid` yields exactly one
role with id `rid` (when the map holds `rid` and map values carry their key
as id). -/
theorem countP_filterMap_get_one {roles : JsMap Role} {ids : List String} {rid : String}
    (hWF : ∀ p ∈ roles, p.2.id = p.1) (hnd : ids.Nodup) (hmem : rid ∈ ids)
    (hsome : JsMap.has roles rid = true) :
    (ids.filterMap fun k => JsMap.get roles k).countP (fun r => r.id = rid) = 1 := by
  induction ids with
  | nil => simp at hmem
  | cons x xs ih =>
    rw [List.nodup_cons] at hnd
    by_cases hx : x = rid
    · subst hx
      obtain ⟨r0, hr0⟩ := Option.isSome_iff_exists.mp hsome
      rw [List.filterMap_cons, hr0, List.countP_cons]
      have hid : r0.id = x := hWF (x, r0) (JsMap.get_some hr0)
      rw [countP_filterMap_get_zero hWF hnd.1]
      simp [hid]
    · have hmem2 : rid ∈ xs := by
        cases List.mem_cons.mp hmem with
        | inl hh => exact absurd hh.symm hx
        | inr hh => exact hh
      rw [List.filterMap_cons]
      cases hg : JsMap.get roles x with
      | none => exact ih hnd.2 hmem2
      | some r0 =>
        rw [List.countP_cons]
        have hid : r0.id = x := hWF (x, r0) (JsMap.get_some hg)
        have : (decide (r0.id = rid)) = false := by simp [hid, hx]
        rw [this]
        simpa using ih hnd.2 hmem2

/-- Filtering a duplicate-id-free role list by membership of `r.id` in a
list containing `rid` keeps exactly one role with id `rid` (when such a
role is stored). -/
theorem countP_filter_contains_one {roles : List Role} {ids : List String} {rid : String}
    (hnd : (roles.map Role.id).Nodup) (hmem : rid ∈ ids)
    (hex : (roles.any fun r => r.id = rid) = true) :
    ((roles.filter fun r => ids.contains r.id).countP fun r => r.id = rid) = 1 := by
  rw [List.countP_filter]
  have hpt : ∀ r ∈ roles,
      ((decide (r.id = rid) && ids.contains r.id) = true) ↔ (decide (r.id = rid) = true) := by
    intro r _
    by_cases hr : r.id = rid
    · have : ids.contains rid = true := List.elem_iff.mpr hmem
      simp [hr, this, hmem]
    · simp [hr]
  rw [List.countP_congr hpt]
  have hle := countP_le_one_of_nodup_map hnd rid
  have hpos : 0 < roles.countP fun r => decide (r.id = rid) := by
    rw [List.countP_pos_iff]
    exact List.any_eq_true.mp hex
  omega

theorem mem_assignRole_idempotent {s : MemState} {uid rid : String} {t1 t2 : Nat}
    (_hnt : s.inTransaction = false) (htd : s.transactionData = none)
    (huid : uid ≠ "") (hrid : rid ≠ "")
    (huser : JsMap.has s.users uid = true) (hrole : JsMap.has s.roles rid = true)
    (hWFur : ∀ p ∈ s.userRoles, p.1 = p.2.userId ++ ":" ++ p.2.roleId)
    (hkeys : (s.userRoles.map Prod.fst).Nodup)
    (hWFroles : ∀ p ∈ s.roles, p.2.id = p.1)
    (hcu : ':' ∉ uid.data)
    (hcs : ∀ p ∈ s.userRoles, ':' ∉ p.2.userId.data) :
    ∃ a1 s1, MemoryAdapter.assignRole s uid rid t1 = .ok (a1, s1) ∧
      MemoryAdapter.assignRole s1 uid rid t2 = .ok (a1, s1) ∧
      a1.userId = uid ∧ a1.roleId = rid ∧
      (s1.userRoles.countP fun p => p.2.userId = uid && p.2.roleId = rid) ≤ 1 ∧
      ∃ l, MemoryAdapter.getUserRoles s1 uid = .ok l ∧
        (l.countP fun r => r.id = rid) = 1 := by
  have hvu : validateId uid = none := by simp [validateId, huid]
  have hvr : validateId rid = none := by simp [validateId, hrid]
  have hmapge : MemoryAdapter.getUserRoleMap s = s.userRoles := by
    unfold MemoryAdapter.getUserRoleMap
    rw [htd]
  have hmapgr : MemoryAdapter.getRoleMap s = s.roles := by
    unfold MemoryAdapter.getRoleMap
    rw [htd]
  cases hget : JsMap.get s.userRoles (uid ++ ":" ++ rid) with
  | some a1 =>
    have hcall : ∀ t : Nat, MemoryAdapter.assignRole s uid rid t = .ok (a1, s) := by
      intro t
      unfold MemoryAdapter.assignRole
      rw [hvu, hvr]
      dsimp only
      rw [huser, hrole, htd]
      dsimp only
      rw [hmapge, hget]
      rfl
    have hfound : (uid ++ ":" ++ rid, a1) ∈ s.userRoles := JsMap.get_some hget
    have hkey : uid ++ ":" ++ rid = a1.userId ++ ":" ++ a1.roleId := hWFur _ hfound
    obtain ⟨hu1, hr1⟩ := key_encoding_inj hcu (hcs _ hfound) hkey
    have hu2 : a1.userId = uid := hu1.symm
    have hr2 : a1.roleId = rid := hr1.symm
    refine ⟨a1, s, hcall t1, hcall t2, ?_, ?_, ?_, ?_⟩
    · exact hu2
    · exact hr2
    · calc (s.userRoles.countP fun p => p.2.userId = uid && p.2.roleId = rid)
          ≤ s.userRoles.countP fun p => p.1 = uid ++ ":" ++ rid := by
            apply List.countP_mono_left
            intro p hp hpair
            simp only [Bool.and_eq_true, decide_eq_true_eq] at hpair
            simp only [decide_eq_true_eq]
            rw [hWFur p hp, hpair.1, hpair.2]
        _ ≤ 1 := countP_le_one_of_nodup_map hkeys _
    · refine ⟨(dedupFirst (((JsMap.values s.userRoles).filter
          fun ur => ur.userId = uid).map fun ur => ur.roleId)).filterMap
            (fun roleId => JsMap.get s.roles roleId), ?_, ?_⟩
      · unfold MemoryAdapter.getUserRoles
        rw [hvu]
        dsimp only
        rw [hmapge, hmapgr]
      · apply countP_filterMap_get_one hWFroles (nodup_dedupFirst _) ?_ hrole
        rw [mem_dedupFirst]
        refine List.mem_map.mpr ⟨a1,
          List.mem_filter.mpr ⟨JsMap.mem_values_of_mem hfound, ?_⟩, hr1.symm⟩
        simp [hu2]
  | none =>
    have hfindnone : s.userRoles.find? (fun p => p.1 = uid ++ ":" ++ rid) = none := by
      have h0 := hget
      unfold JsMap.get at h0
      exact Option.map_eq_none'.mp h0
    have hhas : JsMap.has s.userRoles (uid ++ ":" ++ rid) = false := by
      unfold JsMap.has
      rw [hget]
      rfl
    have hsetapp : JsMap.set s.userRoles (uid ++ ":" ++ rid)
        (⟨uid, rid, .date t1⟩ : UserRole) =
        s.userRoles ++ [(uid ++ ":" ++ rid, (⟨uid, rid, .date t1⟩ : UserRole))] := by
      unfold JsMap.set
      rw [hhas]
      rfl
    have hget2 : JsMap.get
        (s.userRoles ++ [(uid ++ ":" ++ rid, (⟨uid, rid, .date t1⟩ : UserRole))])
        (uid ++ ":" ++ rid) = some ⟨uid, rid, .date t1⟩ := by
      unfold JsMap.get
      rw [List.find?_append, hfindnone]
      simp [List.find?_cons]
    refine ⟨⟨uid, rid, .date t1⟩,
      { s with userRoles :=
          s.userRoles ++ [(uid ++ ":" ++ rid, (⟨uid, rid, .date t1⟩ : UserRole))] },
      ?_, ?_, rfl, rfl, ?_, ?_⟩
    · unfold MemoryAdapter.assignRole
      rw [hvu, hvr]
      dsimp only
      rw [huser, hrole, htd]
      dsimp only
      rw [hmapge, hget]
      dsimp only
      rw [show MemoryAdapter.putUserRoleMap s (JsMap.set s.userRoles (uid ++ ":" ++ rid)
            (⟨uid, rid, .date t1⟩ : UserRole)) =
          { s with userRoles := s.userRoles ++
            [(uid ++ ":" ++ rid, (⟨uid, rid, .date t1⟩ : UserRole))] } from by
        unfold MemoryAdapter.putUserRoleMap
        rw [htd, hsetapp]]
      rw [htd]
      rfl
    · unfold MemoryAdapter.assignRole
      rw [hvu, hvr]
      dsimp only
      rw [huser, hrole, htd]
      dsimp only
      rw [show MemoryAdapter.getUserRoleMap
          { users := s.users, roles := s.roles
            userRoles := s.userRoles ++ [(uid ++ ":" ++ rid, (⟨uid, rid, .date t1⟩ : UserRole))]
            inTransaction := s.inTransaction, transactionData := none } =
          s.userRoles ++ [(uid ++ ":" ++ rid, (⟨uid, rid, .date t1⟩ : UserRole))] from rfl]
      rw [hget2]
      rfl
    · rw [List.countP_append]
      have hzero : (s.userRoles.countP fun p => p.2.userId = uid && p.2.roleId = rid) = 0 := by
        rw [List.countP_eq_zero]
        intro p hp hpair
        simp only [Bool.and_eq_true, decide_eq_true_eq] at hpair
        have hk := hWFur p hp
        rw [hpair.1, hpair.2] at hk
        exact (JsMap.get_eq_none_iff.mp hget p hp) hk
      rw [hzero]
      simp
    · refine ⟨(dedupFirst (((JsMap.values (s.userRoles ++
          [(uid ++ ":" ++ rid, (⟨uid, rid, .date t1⟩ : UserRole))])).filter
          fun ur => ur.userId = uid).map fun ur => ur.roleId)).filterMap
            (fun roleId => JsMap.get s.roles roleId), ?_, ?_⟩
      · unfold MemoryAdapter.getUserRoles
        rw [hvu]
        dsimp only
        rw [show MemoryAdapter.getUserRoleMap
            { s with userRoles := s.userRoles ++
              [(uid ++ ":" ++ rid, (⟨uid, rid, .date t1⟩ : UserRole))] } =
            s.userRoles ++ [(uid ++ ":" ++ rid, (⟨uid, rid, .date t1⟩ : UserRole))] from by
          unfold MemoryAdapter.getUserRoleMap
          dsimp only
          rw [htd]]
        rw [show MemoryAdapter.getRoleMap
            { s with userRoles := s.userRoles ++
              [(uid ++ ":" ++ rid, (⟨uid, rid, .date t1⟩ : UserRole))] } = s.roles from by
          unfold MemoryAdapter.getRoleMap
          dsimp only
          rw [htd]]
      · apply countP_filterMap_get_one hWFroles (nodup_dedupFirst _) ?_ hrole
        rw [mem_dedupFirst]
        refine List.mem_map.mpr ⟨⟨uid, rid, .date t1⟩,
          List.mem_filter.mpr ⟨?_, by simp⟩, rfl⟩
        have hmem1 : ((uid ++ ":" ++ rid, (⟨uid, rid, .date t1⟩ : UserRole)) :
            String × UserRole) ∈
            s.userRoles ++ [(uid ++ ":" ++ rid, (⟨uid, rid, .date t1⟩ : UserRole))] :=
          List.mem_append_right _ (List.mem_cons_self _ _)
        exact JsMap.mem_values_of_mem hmem1

theorem fs_assignRole_idempotent {s : FsState} {uid rid : String} {t1 t2 : Nat}
    (huid : uid ≠ "") (hrid : rid ≠ "")
    (huser : (s.data.users.any fun u => u.id = uid) = true)
    (hrole : (s.data.roles.any fun r => r.id = rid) = true)
    (hpair : (s.data.userRoles.countP fun ur => ur.userId = uid && ur.roleId = rid) ≤ 1)
    (hnd : (s.data.roles.map Role.id).Nodup) :
    ∃ a1 s1, FileSystemAdapter.assignRole s uid rid t1 = .ok (a1, s1) ∧
      FileSystemAdapter.assignRole s1 uid rid t2 = .ok (a1, s1) ∧
      a1.userId = uid ∧ a1.roleId = rid ∧
      (s1.data.userRoles.countP fun ur => ur.userId = uid && ur.roleId = rid) ≤ 1 ∧
      ∃ l, FileSystemAdapter.getUserRoles s1 uid = .ok l ∧
        (l.countP fun r => r.id = rid) = 1 := by
  have hvu : validateId uid = none := by simp [validateId, huid]
  have hvr : validateId rid = none := by simp [validateId, hrid]
  cases hfind : s.data.userRoles.find? (fun ur => ur.userId = uid && ur.roleId = rid) with
  | some a1 =>
    have hp := List.find?_some hfind
    simp only [Bool.and_eq_true, decide_eq_true_eq] at hp
    have hcall : ∀ t : Nat, FileSystemAdapter.assignRole s uid rid t = .ok (a1, s) := by
      intro t
      unfold FileSystemAdapter.assignRole
      rw [hvu, hvr]
      dsimp only
      rw [huser, hrole]
      rw [hfind]
      rfl
    refine ⟨a1, s, hcall t1, hcall t2, hp.1, hp.2, hpair, ?_⟩
    refine ⟨s.data.roles.filter (fun r =>
      (dedupFirst ((s.data.userRoles.filter fun ur => ur.userId = uid).map
        fun ur => ur.roleId)).contains r.id), ?_, ?_⟩
    · unfold FileSystemAdapter.getUserRoles
      rw [hvu]
    · apply countP_filter_contains_one hnd ?_ hrole
      rw [mem_dedupFirst]
      refine List.mem_map.mpr ⟨a1, List.mem_filter.mpr
        ⟨List.mem_of_find?_eq_some hfind, by simp [hp.1]⟩, hp.2⟩
  | none =>
    have hzero : (s.data.userRoles.countP fun ur => ur.userId = uid && ur.roleId = rid) = 0 := by
      rw [List.countP_eq_zero]
      exact List.find?_eq_none.mp hfind
    have hget2 : ((s.data.userRoles ++ [(⟨uid, rid, .date t1⟩ : UserRole)]).find?
        fun ur => ur.userId = uid && ur.roleId = rid) = some ⟨uid, rid, .date t1⟩ := by
      rw [List.find?_append, hfind]
      simp [List.find?_cons]
    refine ⟨⟨uid, rid, .date t1⟩,
      FileSystemAdapter.saveIf
        { s with data := { s.data with userRoles :=
            s.data.userRoles ++ [(⟨uid, rid, .date t1⟩ : UserRole)] } },
      ?_, ?_, rfl, rfl, ?_, ?_⟩
    · unfold FileSystemAdapter.assignRole
      rw [hvu, hvr]
      dsimp only
      rw [huser, hrole]
      rw [hfind]
      rfl
    · unfold FileSystemAdapter.assignRole
      rw [hvu, hvr]
      dsimp only
      rw [saveIf_data]
      dsimp only
      rw [huser, hrole]
      rw [hget2]
      rfl
    · rw [saveIf_data]
      dsimp only
      rw [List.countP_append, hzero]
      simp
    · refine ⟨s.data.roles.filter (fun r =>
        (dedupFirst (((s.data.userRoles ++ [(⟨uid, rid, .date t1⟩ : UserRole)]).filter
          fun ur => ur.userId = uid).map fun ur => ur.roleId)).contains r.id), ?_, ?_⟩
      · unfold FileSystemAdapter.getUserRoles
        rw [hvu]
        dsimp only
        rw [saveIf_data]
      · apply countP_filter_contains_one hnd ?_ hrole
        rw [mem_dedupFirst]
        refine List.mem_map.mpr ⟨⟨uid, rid, .date t1⟩, List.mem_filter.mpr
          ⟨List.mem_append_right _ (List.mem_cons_self _ _), by simp⟩, rfl⟩

/-- C8 (confirmed): for states where user `uid` and role `rid` exist,
`assignRole` is idempotent in both adapters: the second call returns
exactly the association and state produced by the first (same record, same
creation timestamp, no state change), at most one association per
(userId, roleId) pair is stored, and `getUserRoles` lists the role exactly
once.  The memory side is stated under the well-formedness invariants the
adapter maintains (association keys are `userId:roleId` with colon-free
ids and no duplicates, role-map values carry their key as id, no open
transaction); the filesystem side under duplicate-freedom of stored role
ids and of the association pair. -/
theorem C8_assignRole_idempotent :
    (∀ (s : MemState) (uid rid : String) (t1 t2 : Nat),
      s.inTransaction = false → s.transactionData = none →
      uid ≠ "" → rid ≠ "" →
      JsMap.has s.users uid = true → JsMap.has s.roles rid = true →
      (∀ p ∈ s.userRoles, p.1 = p.2.userId ++ ":" ++ p.2.roleId) →
      (s.userRoles.map Prod.fst).Nodup →
      (∀ p ∈ s.roles, p.2.id = p.1) →
      ':' ∉ uid.data →
      (∀ p ∈ s.userRoles, ':' ∉ p.2.userId.data) →
      ∃ a1 s1, MemoryAdapter.assignRole s uid rid t1 = .ok (a1, s1) ∧
        MemoryAdapter.assignRole s1 uid rid t2 = .ok (a1, s1) ∧
        a1.userId = uid ∧ a1.roleId = rid ∧
        (s1.userRoles.countP fun p => p.2.userId = uid && p.2.roleId = rid) ≤ 1 ∧
        ∃ l, MemoryAdapter.getUserRoles s1 uid = .ok l ∧
          (l.countP fun r => r.id = rid) = 1) ∧
    (∀ (s : FsState) (uid rid : String) (t1 t2 : Nat),
      uid ≠ "" → rid ≠ "" →
      (s.data.users.any fun u => u.id = uid) = true →
      (s.data.roles.any fun r => r.id = rid) = true →
      (s.data.userRoles.countP fun ur => ur.userId = uid && ur.roleId = rid) ≤ 1 →
      (s.data.roles.map Role.id).Nodup →
      ∃ a1 s1, FileSystemAdapter.assignRole s uid rid t1 = .ok (a1, s1) ∧
        FileSystemAdapter.assignRole s1 uid rid t2 = .ok (a1, s1) ∧
        a1.userId = uid ∧ a1.roleId = rid ∧
        (s1.data.userRoles.countP fun ur => ur.userId = uid && ur.roleId = rid) ≤ 1 ∧
        ∃ l, FileSystemAdapter.getUserRoles s1 uid = .ok l ∧
          (l.countP fun r => r.id = rid) = 1) :=
  ⟨fun _ _ _ _ _ h1 h2 h3 h4 h5 h6 h7 h8 h9 h10 h11 =>
      mem_assignRole_idempotent h1 h2 h3 h4 h5 h6 h7 h8 h9 h10 h11,
    fun _ _ _ _ _ h1 h2 h3 h4 h5 h6 =>
      fs_assignRole_idempotent h1 h2 h3 h4 h5 h6⟩

/-- C8 (witness): the theorem applied to concrete states holding user "u1"
and role "r1", twice assigning the pair at instants 7 then 8. -/
theorem C8_witness :
    (∃ a1 s1, MemoryAdapter.assignRole memS0 "u1" "r1" 7 = .ok (a1, s1) ∧
      MemoryAdapter.assignRole s1 "u1" "r1" 8 = .ok (a1, s1) ∧
      a1.userId = "u1" ∧ a1.roleId = "r1" ∧
      (s1.userRoles.countP fun p => p.2.userId = "u1" && p.2.roleId = "r1") ≤ 1 ∧
      ∃ l, MemoryAdapter.getUserRoles s1 "u1" = .ok l ∧
        (l.countP fun r => r.id = "r1") = 1) ∧
    (∃ a1 s1, FileSystemAdapter.assignRole fsS0 "u1" "r1" 7 = .ok (a1, s1) ∧
      FileSystemAdapter.assignRole s1 "u1" "r1" 8 = .ok (a1, s1) ∧
      a1.userId = "u1" ∧ a1.roleId = "r1" ∧
      (s1.data.userRoles.countP fun ur => ur.userId = "u1" && ur.roleId = "r1") ≤ 1 ∧
      ∃ l, FileSystemAdapter.getUserRoles s1 "u1" = .ok l ∧
        (l.countP fun r => r.id = "r1") = 1) :=
  ⟨C8_assignRole_idempotent.1 memS0 "u1" "r1" 7 8 rfl rfl (by decide) (by decide)
      rfl rfl (by simp [memS0]) (by simp [memS0]) (by decide) (by decide) (by simp [memS0]),
    C8_assignRole_idempotent.2 fsS0 "u1" "r1" 7 8 (by decide) (by decide)
      rfl rfl (by simp [fsS0]) (by decide)⟩
